import Mathlib

/-!
Shallow embedding of the `edgar-sec-filings` incremental ingestion pipeline.

Dates are encoded as natural numbers `yyyy * 10000 + mm * 100 + dd`, so that the
numeric order coincides with chronological order of calendar dates; `datetime`
values appearing in the source are always dates at midnight (they are produced by
`strptime("%Y-%m-%d")` or by `datetime(1900, 1, 1)`), so this encoding is
faithful to every comparison the source performs.

Python dictionaries are modelled as association lists (`List (String × β)`) with
`alookup` (dict `get`) and `ainsert` (dict item assignment).
-/

namespace Edgar

/-- Dictionary lookup, mirroring Python `dict.get`. -/
def alookup {β : Type} (k : String) : List (String × β) → Option β
  | [] => none
  | (a, b) :: rest => if a = k then some b else alookup k rest

/-- Dictionary lookup with a default, mirroring Python `dict.get(k, d)`. -/
def alookupD {β : Type} (m : List (String × β)) (k : String) (d : β) : β :=
  match alookup k m with
  | some v => v
  | none => d

/-- Dictionary item assignment `m[k] = v`, replacing an existing binding in place
or appending a fresh one (Python dicts keep insertion order). -/
def ainsert {β : Type} (k : String) (v : β) : List (String × β) → List (String × β)
  | [] => [(k, v)]
  | (a, b) :: rest => if a = k then (k, v) :: rest else (a, b) :: ainsert k v rest

/-- Decide whether a character is an ASCII digit. -/
def isDigitChar (c : Char) : Bool :=
  '0' ≤ c ∧ c ≤ '9'

/-- Numeric value of an ASCII digit. -/
def digitVal (c : Char) : Nat :=
  c.toNat - '0'.toNat

/-- Parse a `"YYYY-MM-DD"` string into the `yyyymmdd` numeric encoding, mirroring
`datetime.strptime(s, "%Y-%m-%d")`: `none` models the `ValueError` raised on a
malformed date string. -/
def parseDate (s : String) : Option Nat :=
  match s.toList with
  | [y1, y2, y3, y4, '-', m1, m2, '-', d1, d2] =>
    if isDigitChar y1 ∧ isDigitChar y2 ∧ isDigitChar y3 ∧ isDigitChar y4 ∧
        isDigitChar m1 ∧ isDigitChar m2 ∧ isDigitChar d1 ∧ isDigitChar d2 then
      let y := ((digitVal y1 * 10 + digitVal y2) * 10 + digitVal y3) * 10 + digitVal y4
      let m := digitVal m1 * 10 + digitVal m2
      let d := digitVal d1 * 10 + digitVal d2
      if 1 ≤ m ∧ m ≤ 12 ∧ 1 ≤ d ∧ d ≤ 31 then
        some (y * 10000 + m * 100 + d)
      else
        none
    else
      none
  | _ => none

/-- The default watermark `datetime(1900, 1, 1)` used when no previous state exists. -/
def date1900 : Nat := 19000101

/-- Calendar year of an encoded date. -/
def yearOf (d : Nat) : Nat := d / 10000

/-- Calendar month of an encoded date. -/
def monthOf (d : Nat) : Nat := d / 100 % 100

/-- Zero-pad a number to two digits, mirroring Python `f"{m:02d}"`. -/
def pad2 (n : Nat) : String :=
  if n < 10 then "0" ++ toString n else toString n

/-- The derived quarter label `f"{year}-Q{(month - 1) // 3 + 1}"`. -/
def quarterLabel (d : Nat) : String :=
  toString (yearOf d) ++ "-Q" ++ toString ((monthOf d - 1) / 3 + 1)

/-- The derived month label `f"{year}-{month:02d}"`. -/
def monthLabel (d : Nat) : String :=
  toString (yearOf d) ++ "-" ++ pad2 (monthOf d)

/-- One row of the ticker index consumed by the asset transforms
(`row["cik_str"]`, `row["ticker"]`, `row["title"]`). -/
structure TickerRow where
  cik_str : String
  ticker : String
  title : String
deriving DecidableEq

/-! ## Facts asset: `assets/xbrl_company_facts/xbrl_company_facts.py` -/

/-- One entry of a `units` array of an XBRL company-facts snapshot.  Fields model
`fact.get("filed")`, `"start" in fact`, `"end" in fact`, `"instant" in fact`,
`fact.get("val")`, `fact.get("fy")`, `fact.get("fp")`, `fact.get("form", "")`
and `fact.get("accn", "")`. -/
structure FactEntry where
  filed : Option String
  start : Option String
  end_ : Option String
  instant : Option String
  val : Option Int
  fy : Option Int
  fp : Option String
  form : Option String
  accn : Option String
deriving DecidableEq

/-- Concept-level data: `concept_data.get("label", "")`,
`concept_data.get("description", "")` and `concept_data.get("units", {})`. -/
structure ConceptData where
  label : String
  description : String
  units : List (String × List FactEntry)
deriving DecidableEq

/-- A company-facts snapshot: `entityName` plus the
taxonomy → concept → concept-data nesting.  Entries of the source JSON that are
not dictionaries/lists are skipped by `isinstance` guards in the source; the
typed model excludes them. -/
structure FactsSnapshot where
  entityName : String
  facts : List (String × List (String × ConceptData))
deriving DecidableEq

/-- Identifiers threaded into each emitted fact record. -/
structure FactCtx where
  cik : String
  ticker : String
  entityName : String
  taxonomy : String
  concept : String
  label : String
  description : String
  unitType : String
deriving DecidableEq

/-- One flattened fact record, with all fields of the `fact_record` dict built at
lines 190-212 of `assets/xbrl_company_facts/xbrl_company_facts.py`. -/
structure FactRecord where
  cik : String
  entity_name : String
  ticker : String
  taxonomy : String
  concept : String
  label : String
  description : String
  unit : String
  value : Option Int
  start_date : Option Nat
  end_date : Nat
  instant_date : Option Nat
  period_type : String
  fiscal_year : Option Int
  fiscal_period : Option String
  form : String
  filed : Nat
  accession : String
  fact_year : Nat
  fact_quarter : String
  fact_month : String
deriving DecidableEq

/-- The period-parsing branches at lines 156-183 of the facts asset: returns
`(start_date, end_date, instant_date, period_type)` when a usable period was
found, `none` when the fact is dropped (`continue`).  In the `instant` branch
the source sets `end_date = instant_date`, and in the end-only branch
`period_type` keeps its initial value `"instant"`. -/
def periodDates (fact : FactEntry) : Option (Option Nat × Nat × Option Nat × String) :=
  match fact.start, fact.end_ with
  | some s, some e =>
    match parseDate s, parseDate e with
    | some sd, some ed => some (some sd, ed, none, "duration")
    | _, _ => none
  | _, _ =>
    match fact.instant with
    | some i =>
      match parseDate i with
      | some idt => some (none, idt, some idt, "instant")
      | none => none
    | none =>
      match fact.end_ with
      | some e =>
        match parseDate e with
        | some ed => some (none, ed, none, "instant")
        | none => none
      | none => none

/-- Processing of a single fact (lines 134-214 of the facts asset): parse the
`filed` date, skip facts at or before the watermark, advance the running
`most_recent_filing`, parse the period and build the flat record.  Returns the
updated `most_recent_filing` and the record, if one was emitted. -/
def factStep (ctx : FactCtx) (lastUpdate mostRecent : Nat) (fact : FactEntry) :
    Nat × Option FactRecord :=
  match fact.filed with
  | none => (mostRecent, none)
  | some fs =>
    match parseDate fs with
    | none => (mostRecent, none)
    | some fd =>
      if fd ≤ lastUpdate then (mostRecent, none)
      else
        let mr := if mostRecent < fd then fd else mostRecent
        match periodDates fact with
        | none => (mr, none)
        | some (sd, ed, idt, pt) =>
          (mr, some {
            cik := ctx.cik
            entity_name := ctx.entityName
            ticker := ctx.ticker
            taxonomy := ctx.taxonomy
            concept := ctx.concept
            label := ctx.label
            description := ctx.description
            unit := ctx.unitType
            value := fact.val
            start_date := sd
            end_date := ed
            instant_date := idt
            period_type := pt
            fiscal_year := fact.fy
            fiscal_period := fact.fp
            form := match fact.form with | some f => f | none => ""
            filed := fd
            accession := match fact.accn with | some a => a | none => ""
            fact_year := yearOf ed
            fact_quarter := quarterLabel ed
            fact_month := monthLabel ed })

/-- Loop over the facts of one unit array, threading `most_recent_filing` and the
accumulated records. -/
def unitFactsLoop (ctx : FactCtx) (lastUpdate : Nat) :
    List FactEntry → Nat → List FactRecord → Nat × List FactRecord
  | [], mr, acc => (mr, acc)
  | f :: rest, mr, acc =>
    let st := factStep ctx lastUpdate mr f
    match st.2 with
    | some r => unitFactsLoop ctx lastUpdate rest st.1 (acc ++ [r])
    | none => unitFactsLoop ctx lastUpdate rest st.1 acc

/-- Loop over the unit types of one concept (`units_data.items()`). -/
def unitsLoop (ctx : FactCtx) (lastUpdate : Nat) :
    List (String × List FactEntry) → Nat → List FactRecord → Nat × List FactRecord
  | [], mr, acc => (mr, acc)
  | (unitType, facts) :: rest, mr, acc =>
    let st := unitFactsLoop { ctx with unitType := unitType } lastUpdate facts mr acc
    unitsLoop ctx lastUpdate rest st.1 st.2

/-- Loop over the concepts of one taxonomy (`concepts.items()`). -/
def conceptsLoop (ctx : FactCtx) (lastUpdate : Nat) :
    List (String × ConceptData) → Nat → List FactRecord → Nat × List FactRecord
  | [], mr, acc => (mr, acc)
  | (concept, cdata) :: rest, mr, acc =>
    let st := unitsLoop
      { ctx with concept := concept, label := cdata.label, description := cdata.description }
      lastUpdate cdata.units mr acc
    conceptsLoop ctx lastUpdate rest st.1 st.2

/-- Loop over the taxonomies of one snapshot (`facts.items()`). -/
def taxonomiesLoop (ctx : FactCtx) (lastUpdate : Nat) :
    List (String × List (String × ConceptData)) → Nat → List FactRecord →
    Nat × List FactRecord
  | [], mr, acc => (mr, acc)
  | (taxonomy, concepts) :: rest, mr, acc =>
    let st := conceptsLoop { ctx with taxonomy := taxonomy } lastUpdate concepts mr acc
    taxonomiesLoop ctx lastUpdate rest st.1 st.2

/-- All records of one company's snapshot, together with the final
`most_recent_filing` (initialised to `last_update_dt`, line 114). -/
def entityFacts (cik ticker : String) (snap : FactsSnapshot) (lastUpdate : Nat) :
    Nat × List FactRecord :=
  taxonomiesLoop
    { cik := cik, ticker := ticker, entityName := snap.entityName,
      taxonomy := "", concept := "", label := "", description := "", unitType := "" }
    lastUpdate snap.facts lastUpdate []

/-- Per-company body of the `process_xbrl_facts` loop (lines 92-224): look up the
watermark, fetch (the oracle `fetch` returns `none` when
`fetch_company_facts` returned `None`), emit records, and record the new
watermark entry.  A failed fetch `continue`s before `new_last_updates[cik]` is
assigned, so it adds no entry to the new state. -/
def xbrlEntityStep (fetch : String → Option FactsSnapshot)
    (lastUpdates : List (String × Nat))
    (acc : List FactRecord × List (String × Nat)) (row : TickerRow) :
    List FactRecord × List (String × Nat) :=
  let lastUpdate := alookupD lastUpdates row.cik_str date1900
  match fetch row.cik_str with
  | none => acc
  | some snap =>
    let st := entityFacts row.cik_str row.ticker snap lastUpdate
    let newEntry :=
      if lastUpdate < st.1 then st.1 else alookupD lastUpdates row.cik_str date1900
    (acc.1 ++ st.2, ainsert row.cik_str newEntry acc.2)

/-- `process_xbrl_facts`: returns the emitted records and the `last_updates` map
that is stored after the run.  When the input table is empty the function
returns before `save_state`, leaving the previously stored map in place;
otherwise the stored map is `new_last_updates`, built from an empty dict. -/
def processXbrlFacts (fetch : String → Option FactsSnapshot)
    (lastUpdates : List (String × Nat)) (tickersData : List TickerRow) :
    List FactRecord × List (String × Nat) :=
  match tickersData with
  | [] => ([], lastUpdates)
  | _ => tickersData.foldl (xbrlEntityStep fetch lastUpdates) ([], [])

/-! ## Filings asset: `assets/edgar_filings/edgar_filings.py` -/

/-- The parallel arrays of `filings.recent` extracted at lines 116-126 of the
filings asset (and lines 132-139 of `src/nodes/edgar_filings.py`).  Array
elements that can be JSON `null` are `Option String`; `isXBRL`/`isInlineXBRL`
hold the truthiness of the JSON entries; `reportDate` entries are strings where
`""` is the falsy empty value. -/
structure RecentFilings where
  form : List String
  filingDate : List String
  accessionNumber : List String
  fileNumber : List (Option String)
  filmNumber : List (Option String)
  acceptanceDateTime : List (Option String)
  reportDate : List String
  isXBRL : List Bool
  isInlineXBRL : List Bool
  primaryDocument : List (Option String)
  primaryDocDescription : List (Option String)
deriving DecidableEq

/-- A submissions snapshot as seen by the filings asset:
`data.get("filings", {}).get("recent", {})`, where `none` stands for a missing
or empty (falsy) `recent` object. -/
structure SubmissionsSnapshot where
  recent : Option RecentFilings
deriving DecidableEq

/-- One flattened filing record of the filings asset (lines 152-170). -/
structure FilingRecord where
  cik : String
  ticker : String
  company_name : String
  form_type : String
  filing_date : Nat
  accession_number : Option String
  file_number : Option String
  film_number : Option String
  acceptance_datetime : Option String
  report_date : Option Nat
  is_xbrl : Bool
  is_inline_xbrl : Bool
  primary_document : Option String
  primary_doc_description : Option String
  filing_year : Nat
  filing_quarter : String
  filing_month : String
deriving DecidableEq

/-- `report_dates[i]` handling at lines 144-150: the field is set only when the
index is in range, the entry is truthy and `strptime` succeeds (`except: pass`). -/
def reportDateAt (r : RecentFilings) (i : Nat) : Option Nat :=
  if i < r.reportDate.length ∧ r.reportDate.getD i "" ≠ "" then
    parseDate (r.reportDate.getD i "")
  else
    none

/-- The record built at lines 152-170 of the filings asset for index `i`. -/
def filingRecordAt (cik ticker companyName : String) (r : RecentFilings)
    (i : Nat) (formType : String) (fd : Nat) : FilingRecord :=
  { cik := cik
    ticker := ticker
    company_name := companyName
    form_type := formType
    filing_date := fd
    accession_number := if i < r.accessionNumber.length then some (r.accessionNumber.getD i "") else none
    file_number := if i < r.fileNumber.length then r.fileNumber.getD i none else none
    film_number := if i < r.filmNumber.length then r.filmNumber.getD i none else none
    acceptance_datetime := if i < r.acceptanceDateTime.length then r.acceptanceDateTime.getD i none else none
    report_date := reportDateAt r i
    is_xbrl := if i < r.isXBRL.length then r.isXBRL.getD i false else false
    is_inline_xbrl := if i < r.isInlineXBRL.length then r.isInlineXBRL.getD i false else false
    primary_document := if i < r.primaryDocument.length then r.primaryDocument.getD i none else none
    primary_doc_description := if i < r.primaryDocDescription.length then r.primaryDocDescription.getD i none else none
    filing_year := yearOf fd
    filing_quarter := quarterLabel fd
    filing_month := monthLabel fd }

/-- The `for i, form_type in enumerate(forms)` loop at lines 129-172 of the
filings asset: stop (`break`) as soon as `filingDate` or `accessionNumber` runs
out, skip filings at or before the watermark, advance `most_recent_filing` and
collect the records.  `strptime(filing_date, "%Y-%m-%d")` at line 134 is not
guarded by a `try`, so an unparsable filing date raises out of the whole run:
this is the `Except.error` case. -/
def filingsLoop (cik ticker companyName : String) (lastUpdate : Nat)
    (r : RecentFilings) :
    Nat → List String → Nat → List FilingRecord →
    Except String (Nat × List FilingRecord)
  | _, [], mr, acc => .ok (mr, acc)
  | i, formType :: rest, mr, acc =>
    if r.filingDate.length ≤ i ∨ r.accessionNumber.length ≤ i then .ok (mr, acc)
    else
      match parseDate (r.filingDate.getD i "") with
      | none => .error "time data does not match format %Y-%m-%d"
      | some fd =>
        if fd ≤ lastUpdate then
          filingsLoop cik ticker companyName lastUpdate r (i + 1) rest mr acc
        else
          let mr' := if mr < fd then fd else mr
          filingsLoop cik ticker companyName lastUpdate r (i + 1) rest mr'
            (acc ++ [filingRecordAt cik ticker companyName r i formType fd])

/-- Per-company body of the `process_filings` loop (lines 88-182): a failed fetch
or a missing/empty `filings.recent` object `continue`s before
`new_last_updates[cik]` is assigned, so such companies add no entry to the new
state. -/
def filingsEntityStep (fetch : String → Option SubmissionsSnapshot)
    (lastUpdates : List (String × Nat))
    (acc : Except String (List FilingRecord × List (String × Nat)))
    (row : TickerRow) :
    Except String (List FilingRecord × List (String × Nat)) :=
  match acc with
  | .error e => .error e
  | .ok (allRecs, nlu) =>
    let lastUpdate := alookupD lastUpdates row.cik_str date1900
    match fetch row.cik_str with
    | none => .ok (allRecs, nlu)
    | some snap =>
      match snap.recent with
      | none => .ok (allRecs, nlu)
      | some r =>
        match filingsLoop row.cik_str row.ticker row.title lastUpdate r 0 r.form
            lastUpdate [] with
        | .error e => .error e
        | .ok (mr, recs) =>
          let newEntry :=
            if lastUpdate < mr then mr else alookupD lastUpdates row.cik_str date1900
          .ok (allRecs ++ recs, ainsert row.cik_str newEntry nlu)

/-- `process_filings`: emitted records and the `last_updates` map stored after
the run.  The empty-input early return leaves the stored state untouched; an
unparsable filing date raises, aborting the run before any state is saved. -/
def processFilings (fetch : String → Option SubmissionsSnapshot)
    (lastUpdates : List (String × Nat)) (tickersData : List TickerRow) :
    Except String (List FilingRecord × List (String × Nat)) :=
  match tickersData with
  | [] => .ok ([], lastUpdates)
  | _ => tickersData.foldl (filingsEntityStep fetch lastUpdates) (.ok ([], []))

/-! ## Two-phase filings transform: `src/nodes/edgar_filings.py`, `transform`
(the loop is identical in `src/transforms/edgar_filings/main.py`, `run`). -/

/-- One output row of the two-phase filings transform (lines 145-156 of
`src/nodes/edgar_filings.py`).  Filing dates stay raw strings here: this
transform performs no date parsing. -/
structure NFilingRecord where
  cik : String
  company_name : String
  form_type : String
  filing_date : String
  accession_number : String
  file_number : Option String
  report_date : Option String
  is_xbrl : Bool
  is_inline_xbrl : Bool
  primary_document : Option String
deriving DecidableEq

/-- The `for i, form_type in enumerate(forms)` loop at lines 141-156:
`break` as soon as `i` reaches the length of `filingDate` or `accessionNumber`;
every other array is padded (`xs[i] if i < len(xs) else None` / `False`). -/
def nFilingsLoop (cik companyName : String) (r : RecentFilings) :
    Nat → List String → List NFilingRecord
  | _, [] => []
  | i, formType :: rest =>
    if r.filingDate.length ≤ i ∨ r.accessionNumber.length ≤ i then []
    else
      { cik := cik
        company_name := companyName
        form_type := formType
        filing_date := r.filingDate.getD i ""
        accession_number := r.accessionNumber.getD i ""
        file_number := if i < r.fileNumber.length then r.fileNumber.getD i none else none
        report_date :=
          if i < r.reportDate.length ∧ r.reportDate.getD i "" ≠ "" then
            some (r.reportDate.getD i "")
          else none
        is_xbrl := if i < r.isXBRL.length then r.isXBRL.getD i false else false
        is_inline_xbrl := if i < r.isInlineXBRL.length then r.isInlineXBRL.getD i false else false
        primary_document := if i < r.primaryDocument.length then r.primaryDocument.getD i none else none
      } :: nFilingsLoop cik companyName r (i + 1) rest

/-- Records emitted for one company by the two-phase filings transform. -/
def nFilingsRecords (cik companyName : String) (r : RecentFilings) :
    List NFilingRecord :=
  nFilingsLoop cik companyName r 0 r.form

/-! ## Per-entity incremental ingest: `src/nodes/edgar_filings.py` and
`src/nodes/xbrl_company_facts.py`, `ingest` -/

/-- An exception raised by `rate_limited_get` / `raise_for_status`:
`status` is the HTTP status code when the failure is HTTP-level (`none` for
transport errors), `msg` is `str(e)`. -/
structure FetchError where
  status : Option Nat
  msg : String
deriving DecidableEq

/-- Result of one fetch attempt: the parsed JSON body, or the exception. -/
inductive FetchOutcome (α : Type) : Type
  | success (data : α)
  | failure (e : FetchError)
deriving DecidableEq

/-- A document stored in the Raw Store: a real payload, the
`{"error": str(e), "cik": cik}` sentinel, or the `{"no_data": True, "cik": cik}`
sentinel. -/
inductive RawDoc (α : Type) : Type
  | payload (data : α)
  | errorSentinel (msg cik : String)
  | noDataSentinel (cik : String)
deriving DecidableEq

/-- Substring test on character lists, mirroring Python `needle in haystack`. -/
def charsContain (needle : List Char) : List Char → Bool
  | [] => needle.isEmpty
  | c :: rest => needle.isPrefixOf (c :: rest) || charsContain needle rest

/-- Substring test on strings, mirroring Python `needle in haystack`. -/
def strContains (needle hay : String) : Bool :=
  charsContain needle.toList hay.toList

/-- `str(cik).zfill(10)`. -/
def zfill10 (s : String) : String :=
  if s.length < 10 then String.mk (List.replicate (10 - s.length) '0') ++ s else s

/-- The `except` branch of the facts ingest (lines 98-105 of
`src/nodes/xbrl_company_facts.py`): the `{no_data}` sentinel is chosen by
`"404" in str(e)`, a test on the exception message text. -/
def xbrlFailureSentinel {α : Type} (cik : String) (e : FetchError) : RawDoc α :=
  if strContains "404" e.msg then
    RawDoc.noDataSentinel cik
  else
    RawDoc.errorSentinel e.msg cik

/-- The `except` branch of the submissions ingest (lines 89-92 of
`src/nodes/edgar_filings.py`): every failure, 404 included, is stored as the
`{error}` sentinel. -/
def submissionsFailureSentinel {α : Type} (cik : String) (e : FetchError) : RawDoc α :=
  RawDoc.errorSentinel e.msg cik

/-- One entry of the ticker index consumed by the ingest loops
(`company["cik_str"]`, `company.get("ticker", "")`). -/
structure Company where
  cik_str : String
  ticker : String
deriving DecidableEq

/-- Python `set.add` on the completion set, modelled as append-if-absent
(`sorted(...)` on save does not affect membership and is omitted). -/
def insertCompleted (k : String) (l : List String) : List String :=
  if k ∈ l then l else l ++ [k]

/-- Raw Store plus Completion Set of one ingest stream. -/
structure IngestState (α : Type) where
  store : List (String × RawDoc α)
  completed : List String
deriving DecidableEq

/-- The document the per-entity body persists, given the fetch outcome: the
payload on success, the stream's failure sentinel otherwise.  Both ingest
loops persist a document on every path through the `try`/`except`. -/
def fetchedDoc {α : Type} (sentinel : String → FetchError → RawDoc α)
    (cik : String) (outcome : FetchOutcome α) : RawDoc α :=
  match outcome with
  | .success data => RawDoc.payload data
  | .failure e => sentinel cik e

/-- The body of the ingest loop for one pending company (lines 73-96 of
`src/nodes/edgar_filings.py` and 82-109 of `src/nodes/xbrl_company_facts.py`):
persist the snapshot or sentinel under `keyPrefix ++ zfill10 cik`, then add the
company to the Completion Set and persist the set. -/
def ingestEntity {α : Type} (keyPrefix : String)
    (sentinel : String → FetchError → RawDoc α)
    (fetch : Company → FetchOutcome α) (st : IngestState α) (c : Company) :
    IngestState α :=
  let cik := zfill10 c.cik_str
  let doc := fetchedDoc sentinel cik (fetch c)
  { store := ainsert (keyPrefix ++ cik) doc st.store,
    completed := insertCompleted c.cik_str st.completed }

/-- The ingest loop over the pending list, accumulating the companies actually
fetched (each loop iteration performs exactly one `rate_limited_get`). -/
def ingestLoop {α : Type} (keyPrefix : String)
    (sentinel : String → FetchError → RawDoc α)
    (fetch : Company → FetchOutcome α) :
    List Company → IngestState α → List Company → IngestState α × List Company
  | [], st, fetched => (st, fetched)
  | c :: rest, st, fetched =>
    ingestLoop keyPrefix sentinel fetch rest
      (ingestEntity keyPrefix sentinel fetch st c) (fetched ++ [c])

/-- `ingest`: compute `pending = [c for c in companies if c["cik_str"] not in
completed]`, return early when it is empty, otherwise run the loop.  The second
component lists the companies fetched, in order. -/
def ingestRun {α : Type} (keyPrefix : String)
    (sentinel : String → FetchError → RawDoc α)
    (fetch : Company → FetchOutcome α)
    (companies : List Company) (st : IngestState α) :
    IngestState α × List Company :=
  let pending := companies.filter (fun c => decide (c.cik_str ∉ st.completed))
  match pending with
  | [] => (st, [])
  | _ => ingestLoop keyPrefix sentinel fetch pending st []

/-- The ingest loop cut off after `fuel` iterations, modelling a run interrupted
(killed) after processing that many pending companies. -/
def ingestLoopFuel {α : Type} (keyPrefix : String)
    (sentinel : String → FetchError → RawDoc α)
    (fetch : Company → FetchOutcome α) :
    Nat → List Company → IngestState α → List Company → IngestState α × List Company
  | 0, _, st, fetched => (st, fetched)
  | _ + 1, [], st, fetched => (st, fetched)
  | fuel + 1, c :: rest, st, fetched =>
    ingestLoopFuel keyPrefix sentinel fetch fuel rest
      (ingestEntity keyPrefix sentinel fetch st c) (fetched ++ [c])

/-- An interrupted `ingest` run: like `ingestRun` but processing at most `fuel`
pending companies before the process dies.  The state returned is the state the
crash leaves behind (store and completion set were persisted after every
company). -/
def ingestRunFuel {α : Type} (keyPrefix : String)
    (sentinel : String → FetchError → RawDoc α)
    (fetch : Company → FetchOutcome α)
    (fuel : Nat) (companies : List Company) (st : IngestState α) :
    IngestState α × List Company :=
  let pending := companies.filter (fun c => decide (c.cik_str ∉ st.completed))
  match pending with
  | [] => (st, [])
  | _ => ingestLoopFuel keyPrefix sentinel fetch fuel pending st []

/-! ### Small-step machine for the ordering invariant (C6)

The per-entity body performs two persistent writes, in this order
(lines 81-96 of `src/nodes/edgar_filings.py`, 90-109 of
`src/nodes/xbrl_company_facts.py`):
1. `save_raw_json(...)` — the snapshot or the sentinel;
2. `completed.add(...)` followed by `save_state(...)`.
The machine below makes each write one atomic step; `current` holds the company
whose snapshot is persisted but that is not yet marked complete. -/

/-- A machine state of the ingest loop, at write granularity. -/
structure MState (α : Type) where
  queue : List Company
  current : Option Company
  store : List (String × RawDoc α)
  completed : List String
deriving DecidableEq

/-- One durable write of the ingest loop. -/
inductive IngStep {α : Type} (keyPrefix : String)
    (sentinel : String → FetchError → RawDoc α)
    (fetch : Company → FetchOutcome α) :
    MState α → MState α → Prop
  | persistData (c : Company) (rest : List Company) (s : MState α)
      (hq : s.queue = c :: rest) (hc : s.current = none) :
      IngStep keyPrefix sentinel fetch s
        { queue := rest
          current := some c
          store := ainsert (keyPrefix ++ zfill10 c.cik_str)
            (fetchedDoc sentinel (zfill10 c.cik_str) (fetch c)) s.store
          completed := s.completed }
  | persistState (c : Company) (s : MState α) (hc : s.current = some c) :
      IngStep keyPrefix sentinel fetch s
        { queue := s.queue
          current := none
          store := s.store
          completed := insertCompleted c.cik_str s.completed }

/-- The invariant of C6: every identifier in the Completion Set has a snapshot
in the Raw Store, and the in-flight company (if any) already has one too. -/
def MInv {α : Type} (keyPrefix : String) (s : MState α) : Prop :=
  (∀ id_ ∈ s.completed, (alookup (keyPrefix ++ zfill10 id_) s.store).isSome) ∧
  (∀ c, s.current = some c →
    (alookup (keyPrefix ++ zfill10 c.cik_str) s.store).isSome)

/-! ## Batched facts writer: `transform` in `src/nodes/xbrl_company_facts.py`
and `run` in `src/transforms/xbrl_company_facts/main.py` (same batching
logic; the latter writes Delta batches and then validates/publishes). -/

/-- The `BATCH_SIZE = 500` constant. -/
def BATCH_SIZE : Nat := 500

/-- Upload mode of one flushed batch. -/
inductive UpMode : Type
  | overwrite
  | append
deriving DecidableEq

/-- One `upload_data` / `write_deltalake` call: number of records, mode,
the value of `companies_processed` at the flush, and whether this was the final
partial-batch flush after the loop. -/
structure Upload where
  size : Nat
  mode : UpMode
  atProcessed : Nat
  final : Bool
deriving DecidableEq

/-- Mutable state of the batched writer loop. -/
structure WState (α : Type) where
  batchRecords : List α
  batchNum : Nat
  companiesProcessed : Nat
  companiesWithData : Nat
  totalFacts : Nat
  errors : Nat
  firstBatch : Bool
  uploads : List Upload
deriving DecidableEq

/-- Initial writer state. -/
def wInit {α : Type} : WState α :=
  { batchRecords := [], batchNum := 0, companiesProcessed := 0,
    companiesWithData := 0, totalFacts := 0, errors := 0,
    firstBatch := true, uploads := [] }

/-- Flush the accumulated batch: `mode = "overwrite" if first_batch else
"append"`, `total_facts += len(batch_records)`, `batch_records.clear()`,
`first_batch = False`. -/
def flushBatch {α : Type} (final : Bool) (s : WState α) : WState α :=
  { s with
    uploads := s.uploads ++
      [{ size := s.batchRecords.length
         mode := if s.firstBatch then UpMode.overwrite else UpMode.append
         atProcessed := s.companiesProcessed
         final := final }]
    totalFacts := s.totalFacts + s.batchRecords.length
    batchNum := s.batchNum + 1
    batchRecords := []
    firstBatch := false }

/-- Loop body for one company: `extract_company_facts` either raises
`FileNotFoundError` (`none`: count the error, count the company, `continue` —
skipping the flush check) or returns a record list; non-empty lists are
accumulated; the batch is flushed when `companies_processed % BATCH_SIZE == 0`
and the batch is non-empty. -/
def writerStep {α : Type} (batchSize : Nat) (s : WState α)
    (outcome : Option (List α)) : WState α :=
  match outcome with
  | none =>
    { s with errors := s.errors + 1, companiesProcessed := s.companiesProcessed + 1 }
  | some records =>
    let s1 :=
      if records.isEmpty then s
      else { s with batchRecords := s.batchRecords ++ records,
                    companiesWithData := s.companiesWithData + 1 }
    let s2 := { s1 with companiesProcessed := s1.companiesProcessed + 1 }
    if s2.companiesProcessed % batchSize = 0 ∧ ¬s2.batchRecords.isEmpty then
      flushBatch false s2
    else
      s2

/-- The whole batched write phase: fold the loop body over the per-company
extraction outcomes, then flush the final partial batch if non-empty. -/
def writerRun {α : Type} (batchSize : Nat) (outcomes : List (Option (List α))) :
    WState α :=
  let s := outcomes.foldl (writerStep batchSize) wInit
  if s.batchRecords.isEmpty then s else flushBatch true s

/-- Number of rows of the Delta table after replaying the uploads:
an `overwrite` replaces the table, an `append` adds to it.  This is the
`total_rows` the validation at lines 229-237 of
`src/transforms/xbrl_company_facts/main.py` reads back from the table's add
actions. -/
def deltaRowCount (uploads : List Upload) : Nat :=
  uploads.foldl
    (fun acc u =>
      match u.mode with
      | UpMode.overwrite => u.size
      | UpMode.append => acc + u.size)
    0

/-- The tail of `run` in `src/transforms/xbrl_company_facts/main.py`
(lines 119-243): batched writing, then the row-count validation
(`if total_rows < 100000: raise ValueError(...)`), then
`publish(DATASET_ID, METADATA)`.  The `.ok` value carries the final writer
state and the published dataset id; `.error` is the raised `ValueError`, which
aborts the run before `publish` is called. -/
def xbrlMainRun {α : Type} (outcomes : List (Option (List α))) :
    Except String (WState α × String) :=
  let s := writerRun BATCH_SIZE outcomes
  let totalRows := deltaRowCount s.uploads
  if totalRows < 100000 then
    .error ("Expected at least 100,000 rows, got " ++ toString totalRows)
  else
    .ok (s, "edgar_xbrl_facts")

/-! ## Companies transform: `src/nodes/company_tickers.py`, `transform` -/

/-- The fields of a cached submissions snapshot read by the companies transform.
`error` models `data.get("error")` truthiness; `name` is `data.get("name")`
with `none`/`some ""` both falsy; `tickers` and `exchanges` model the JSON
lists (`data.get(..., [])`, absent key = `[]`, which is falsy). -/
structure CompanySub where
  error : Bool
  name : Option String
  tickers : List String
  exchanges : List String
  sic : Option String
  sicDescription : Option String
  stateOfIncorporation : Option String
  fiscalYearEnd : Option String
  entityType : Option String
  ein : Option String
deriving DecidableEq

/-- One output row of the companies transform (lines 103-114). -/
structure CompanyRecord where
  cik : String
  ticker : Option String
  name : String
  sic_code : Option String
  sic_description : Option String
  state_of_incorporation : Option String
  fiscal_year_end : Option String
  entity_type : Option String
  ein : Option String
  exchanges : Option (List String)
deriving DecidableEq

/-- Accumulating pass of the first-ticker map construction. -/
def buildTickerMapGo (acc : List (String × TickerRow)) :
    List TickerRow → List (String × TickerRow)
  | [] => acc
  | t :: rest =>
    let cik := zfill10 t.cik_str
    if (alookup cik acc).isSome then buildTickerMapGo acc rest
    else buildTickerMapGo (acc ++ [(cik, t)]) rest

/-- The first-ticker map built at lines 73-77 of `src/nodes/company_tickers.py`:
keyed by the zero-padded CIK, keeping the first entry seen for each CIK
(`if cik not in ticker_map`); key order is first-occurrence order. -/
def buildTickerMap (tickers : List TickerRow) : List (String × TickerRow) :=
  buildTickerMapGo [] tickers

/-- The default `{}` of `ticker_map.get(cik, {})`: every `.get` on it is falsy. -/
def emptyTickerRow : TickerRow :=
  { cik_str := "", ticker := "", title := "" }

/-- The output row built at lines 96-114.  The `ticker` field mirrors the Python
expression `ticker_info.get("ticker") or data.get("tickers", [None])[0] if
data.get("tickers") else None`, in which the conditional binds last: when the
snapshot has no (non-empty) `tickers` list the field is `None`, regardless of
the ticker map. -/
def companyRecordOf (cik : String) (tm : List (String × TickerRow))
    (data : CompanySub) : CompanyRecord :=
  let tickerInfo := alookupD tm cik emptyTickerRow
  { cik := cik
    ticker :=
      if data.tickers.isEmpty then none
      else if tickerInfo.ticker ≠ "" then some tickerInfo.ticker
      else some (data.tickers.headD "")
    name :=
      match data.name with
      | some n => if n ≠ "" then n else tickerInfo.title
      | none => tickerInfo.title
    sic_code := data.sic
    sic_description := data.sicDescription
    state_of_incorporation := data.stateOfIncorporation
    fiscal_year_end := data.fiscalYearEnd
    entity_type := data.entityType
    ein := data.ein
    exchanges := if data.exchanges.isEmpty then none else some data.exchanges }

/-- The `for cik in unique_ciks` loop at lines 84-114: a missing snapshot
(`FileNotFoundError`, modelled by the oracle returning `none`) or an error
sentinel is skipped; otherwise one record is emitted. -/
def companiesLoop (store : String → Option CompanySub)
    (tm : List (String × TickerRow)) : List String → List CompanyRecord
  | [] => []
  | cik :: rest =>
    match store cik with
    | none => companiesLoop store tm rest
    | some data =>
      if data.error then companiesLoop store tm rest
      else companyRecordOf cik tm data :: companiesLoop store tm rest

/-- `transform` of `src/nodes/company_tickers.py`: build the first-ticker map,
then emit at most one record per unique CIK, iterating the map's keys. -/
def companiesTransform (store : String → Option CompanySub)
    (tickers : List TickerRow) : List CompanyRecord :=
  let tm := buildTickerMap tickers
  companiesLoop store tm (tm.map (fun p => p.1))

/-! ## Association-list lemmas -/

theorem alookup_ainsert_self {β : Type} (k : String) (v : β)
    (m : List (String × β)) : alookup k (ainsert k v m) = some v := by
  induction m with
  | nil => simp [ainsert, alookup]
  | cons p rest ih =>
    obtain ⟨a, b⟩ := p
    by_cases h : a = k
    · subst h
      simp [ainsert, alookup]
    · simp [ainsert, alookup, h, ih]

theorem alookup_ainsert_of_ne {β : Type} {k k' : String} (v : β)
    (m : List (String × β)) (h : k' ≠ k) :
    alookup k (ainsert k' v m) = alookup k m := by
  induction m with
  | nil => simp [ainsert, alookup, h]
  | cons p rest ih =>
    obtain ⟨a, b⟩ := p
    by_cases ha : a = k'
    · simp [ainsert, alookup, ha, h]
    · by_cases hk : a = k
      · simp [ainsert, alookup, ha, hk, Ne.symm h]
      · simp [ainsert, alookup, ha, hk, ih]

theorem alookup_ainsert_isSome {β : Type} {k : String} (k' : String) (v : β)
    {m : List (String × β)} (h : (alookup k m).isSome) :
    (alookup k (ainsert k' v m)).isSome := by
  by_cases hk : k' = k
  · subst hk
    simp [alookup_ainsert_self]
  · rwa [alookup_ainsert_of_ne v m hk]

theorem alookup_append {β : Type} (k : String) (l l' : List (String × β)) :
    alookup k (l ++ l') =
      match alookup k l with
      | some v => some v
      | none => alookup k l' := by
  induction l with
  | nil => simp [alookup]
  | cons p rest ih =>
    obtain ⟨a, b⟩ := p
    by_cases h : a = k
    · simp [alookup, h]
    · simp [alookup, h, ih]

/-! ## C2: sentinel choice on fetch failure -/

/-- C2 (claim as stated is falsified): the facts stream persists the
`{no_data}` sentinel for a non-404 status whose message merely mentions "404",
and the submissions stream persists the `{error}` sentinel even for a genuine
HTTP 404 — so the sentinel is not chosen by status code, and the two streams do
not behave alike. -/
theorem c2_counterexample :
    (let e : FetchError :=
      { status := some 500,
        msg := "500 Server Error for url: CIK0000000404.json" }
     e.status ≠ some 404 ∧
       xbrlFailureSentinel (α := Unit) "0000000404" e =
         RawDoc.noDataSentinel "0000000404") ∧
    (let e : FetchError := { status := some 404, msg := "404 Client Error" }
     e.status = some 404 ∧
       submissionsFailureSentinel (α := Unit) "0000320193" e =
         RawDoc.errorSentinel "404 Client Error" "0000320193") := by
  constructor
  · exact ⟨by decide, by decide⟩
  · exact ⟨rfl, rfl⟩

/-- C2 (amended): on a per-entity fetch failure, the facts stream persists the
`{no_data: true}` sentinel exactly when the string `"404"` occurs in the
exception message text (not when the status code is 404), and the submissions
stream always persists the `{error: <message>, cik: <id>}` sentinel, never a
`{no_data}` sentinel. -/
theorem c2_sentinels_amended (cik : String) (e : FetchError) :
    (xbrlFailureSentinel (α := Unit) cik e = RawDoc.noDataSentinel cik ↔
      strContains "404" e.msg = true) ∧
    submissionsFailureSentinel (α := Unit) cik e =
      RawDoc.errorSentinel e.msg cik := by
  refine ⟨?_, rfl⟩
  unfold xbrlFailureSentinel
  by_cases h : strContains "404" e.msg
  · simp [h]
  · simp [h]

/-! ## C3: positional truncation in the filings transform -/

theorem nFilingsLoop_length (cik companyName : String) (r : RecentFilings) :
    ∀ (forms : List String) (i : Nat),
      (nFilingsLoop cik companyName r i forms).length =
        min forms.length
          (min (r.filingDate.length - i) (r.accessionNumber.length - i)) := by
  intro forms
  induction forms with
  | nil => intro i; simp [nFilingsLoop]
  | cons f rest ih =>
    intro i
    by_cases h : r.filingDate.length ≤ i ∨ r.accessionNumber.length ≤ i
    · have h1 : r.filingDate.length - i = 0 ∨ r.accessionNumber.length - i = 0 := by
        rcases h with h | h
        · exact Or.inl (Nat.sub_eq_zero_of_le h)
        · exact Or.inr (Nat.sub_eq_zero_of_le h)
      simp only [nFilingsLoop, if_pos h]
      rcases h1 with h1 | h1 <;> simp [h1]
    · push_neg at h
      obtain ⟨h1, h2⟩ := h
      simp only [nFilingsLoop, if_neg (by omega : ¬(r.filingDate.length ≤ i ∨ r.accessionNumber.length ≤ i))]
      simp only [List.length_cons, ih (i + 1)]
      omega

/-- The input of the claim's concrete example: parallel arrays with
`form = ["10-K", "10-Q"]` and `filingDate = ["2023-01-01"]`; the accession
array has one entry, every remaining array is shorter (empty). -/
def c3ExampleRecent : RecentFilings :=
  { form := ["10-K", "10-Q"]
    filingDate := ["2023-01-01"]
    accessionNumber := ["0000320193-23-000001"]
    fileNumber := []
    filmNumber := []
    acceptanceDateTime := []
    reportDate := []
    isXBRL := []
    isInlineXBRL := []
    primaryDocument := []
    primaryDocDescription := [] }

/-- Length of the shortest of the eight parallel arrays of a snapshot. -/
def shortestArrayLength (r : RecentFilings) : Nat :=
  min r.form.length (min r.filingDate.length (min r.accessionNumber.length
    (min r.fileNumber.length (min r.reportDate.length (min r.isXBRL.length
      (min r.isInlineXBRL.length r.primaryDocument.length))))))

/-- C3 (claim as stated is falsified): on a snapshot whose shortest parallel
array (here `fileNumber`, among others) is empty while `form`, `filingDate` and
`accessionNumber` each have one entry, the transform emits 1 record, not 0 =
length of the shortest positional array: short non-required arrays are padded
with nulls, not truncated to. -/
theorem c3_counterexample :
    (nFilingsRecords "0000320193" "Apple Inc."
        { form := ["10-K"], filingDate := ["2023-01-01"],
          accessionNumber := ["0000320193-23-000001"], fileNumber := [],
          filmNumber := [], acceptanceDateTime := [], reportDate := [],
          isXBRL := [], isInlineXBRL := [], primaryDocument := [],
          primaryDocDescription := [] }).length = 1 ∧
    shortestArrayLength
        { form := ["10-K"], filingDate := ["2023-01-01"],
          accessionNumber := ["0000320193-23-000001"], fileNumber := [],
          filmNumber := [], acceptanceDateTime := [], reportDate := [],
          isXBRL := [], isInlineXBRL := [], primaryDocument := [],
          primaryDocDescription := [] } = 0 ∧
    (1 : Nat) ≠ 0 := by
  refine ⟨rfl, rfl, by decide⟩

/-- C3 (amended): the filings transform truncates at the shortest of the three
required arrays — the number of records emitted per entity is
`min |form| (min |filingDate| |accessionNumber|)`, while the remaining parallel
arrays are padded with null/False defaults rather than truncated to; in
particular for `form = ["10-K","10-Q"]`, `filingDate = ["2023-01-01"]` and a
single accession number, exactly 1 record is emitted, not 2. -/
theorem c3_truncation_amended :
    (∀ (cik companyName : String) (r : RecentFilings),
      (nFilingsRecords cik companyName r).length =
        min r.form.length (min r.filingDate.length r.accessionNumber.length)) ∧
    (nFilingsRecords "0000320193" "Apple Inc." c3ExampleRecent).length = 1 := by
  constructor
  · intro cik companyName r
    simpa using nFilingsLoop_length cik companyName r r.form 0
  · rfl

/-! ## C7: the batched facts writer -/

/-- The mode pattern of the uploads of one run: the first flushed batch is an
overwrite, every later one an append. -/
def modesOK : List Upload → Prop
  | [] => True
  | u :: rest => u.mode = UpMode.overwrite ∧ ∀ v ∈ rest, v.mode = UpMode.append

theorem modesOK_append {l : List Upload} {u : Upload} (h : modesOK l)
    (h1 : l = [] → u.mode = UpMode.overwrite)
    (h2 : l ≠ [] → u.mode = UpMode.append) : modesOK (l ++ [u]) := by
  cases l with
  | nil => exact ⟨h1 rfl, by simp⟩
  | cons a t =>
    refine ⟨h.1, ?_⟩
    intro v hv
    rcases List.mem_append.mp hv with hv | hv
    · exact h.2 v hv
    · rcases List.mem_singleton.mp hv with rfl
      exact h2 (by simp)

/-- The loop invariant of the batched writer. -/
def wInv {α : Type} (batchSize : Nat) (s : WState α) : Prop :=
  (s.firstBatch = true ↔ s.uploads = []) ∧
  modesOK s.uploads ∧
  (∀ u ∈ s.uploads, u.final = false → u.atProcessed % batchSize = 0) ∧
  (s.uploads.map Upload.size).sum = s.totalFacts

theorem wInv_flushBatch {α : Type} {batchSize : Nat} {s : WState α}
    (final : Bool) (h : wInv batchSize s)
    (hb : final = false → s.companiesProcessed % batchSize = 0) :
    wInv batchSize (flushBatch final s) := by
  obtain ⟨hfb, hmodes, hbound, hsum⟩ := h
  refine ⟨?_, ?_, ?_, ?_⟩
  · simp [flushBatch]
  · refine modesOK_append hmodes ?_ ?_
    · intro hnil
      simp [hfb.mpr hnil]
    · intro hne
      have : ¬s.firstBatch = true := fun hfb' => hne (hfb.mp hfb')
      simp [eq_false_of_ne_true this]
  · intro u hu hf
    simp only [flushBatch, List.mem_append, List.mem_singleton] at hu
    rcases hu with hu | rfl
    · exact hbound u hu hf
    · exact hb hf
  · simp [flushBatch, hsum]

theorem wInv_writerStep {α : Type} {batchSize : Nat} {s : WState α}
    (o : Option (List α)) (h : wInv batchSize s) :
    wInv batchSize (writerStep batchSize s o) := by
  obtain ⟨hfb, hmodes, hbound, hsum⟩ := h
  cases o with
  | none => exact ⟨hfb, hmodes, hbound, hsum⟩
  | some records =>
    simp only [writerStep]
    split_ifs with h1 h2 h3 <;>
      first
        | exact ⟨hfb, hmodes, hbound, hsum⟩
        | exact wInv_flushBatch false ⟨hfb, hmodes, hbound, hsum⟩
            (fun _ => (by assumption : _ ∧ _).1)

theorem writerStep_sum {α : Type} (batchSize : Nat) (s : WState α)
    (o : Option (List α)) :
    (writerStep batchSize s o).totalFacts
        + (writerStep batchSize s o).batchRecords.length
      = s.totalFacts + s.batchRecords.length + (o.getD []).length := by
  cases o with
  | none => simp [writerStep]
  | some records =>
    simp only [writerStep, Option.getD_some]
    split_ifs with h1 h2 h3 <;>
      simp_all [flushBatch, List.isEmpty_iff] <;> omega

theorem writerFold_sum {α : Type} (batchSize : Nat) :
    ∀ (outcomes : List (Option (List α))) (s : WState α),
      (outcomes.foldl (writerStep batchSize) s).totalFacts
          + (outcomes.foldl (writerStep batchSize) s).batchRecords.length
        = s.totalFacts + s.batchRecords.length
            + (outcomes.map (fun o => (o.getD []).length)).sum := by
  intro outcomes
  induction outcomes with
  | nil => intro s; simp
  | cons o rest ih =>
    intro s
    simp only [List.foldl_cons, List.map_cons, List.sum_cons]
    rw [ih (writerStep batchSize s o)]
    have := writerStep_sum batchSize s o
    omega

theorem wInv_writerFold {α : Type} (batchSize : Nat) :
    ∀ (outcomes : List (Option (List α))) (s : WState α),
      wInv batchSize s →
      wInv batchSize (outcomes.foldl (writerStep batchSize) s) := by
  intro outcomes
  induction outcomes with
  | nil => intro s h; exact h
  | cons o rest ih =>
    intro s h
    exact ih (writerStep batchSize s o) (wInv_writerStep o h)

/-- C7: for every run of the batched facts writer, the final record count
written equals the sum of all per-entity emitted records (both as
`total_facts` and as the sum of the uploaded batch sizes); the first flushed
(non-empty) batch is uploaded with overwrite mode and every subsequent batch
with append mode; and every non-final flush happens at a
`companies_processed % 500 == 0` boundary. -/
theorem c7_batched_writer (α : Type) (outcomes : List (Option (List α))) :
    (writerRun BATCH_SIZE outcomes).totalFacts
        = (outcomes.map (fun o => (o.getD []).length)).sum ∧
    ((writerRun BATCH_SIZE outcomes).uploads.map Upload.size).sum
        = (writerRun BATCH_SIZE outcomes).totalFacts ∧
    modesOK (writerRun BATCH_SIZE outcomes).uploads ∧
    ∀ u ∈ (writerRun BATCH_SIZE outcomes).uploads,
      u.final = false → u.atProcessed % BATCH_SIZE = 0 := by
  have hinit : wInv (α := α) BATCH_SIZE wInit := by
    refine ⟨by simp [wInit], ?_, ?_, ?_⟩ <;> simp [wInit, modesOK]
  have hinv := wInv_writerFold BATCH_SIZE outcomes wInit hinit
  have hsum := writerFold_sum BATCH_SIZE outcomes wInit
  have hz1 : (wInit : WState α).totalFacts = 0 := rfl
  have hz2 : (wInit : WState α).batchRecords = [] := rfl
  rw [hz1, hz2] at hsum
  simp only [List.length_nil, Nat.add_zero, Nat.zero_add] at hsum
  simp only [writerRun]
  split_ifs with h
  · have hlen : (outcomes.foldl (writerStep BATCH_SIZE) wInit).batchRecords.length = 0 := by
      simp [List.isEmpty_iff.mp h]
    exact ⟨by omega, hinv.2.2.2, hinv.2.1, hinv.2.2.1⟩
  · have hfl := wInv_flushBatch true hinv (fun hf => nomatch hf)
    refine ⟨?_, hfl.2.2.2, hfl.2.1, hfl.2.2.1⟩
    simp only [flushBatch]
    omega

/-- C7 witness: the writer run on one company with one record and one missing
company writes exactly one record in total, and the upload modes follow the
overwrite-then-append pattern. -/
theorem c7_batched_writer_witness :
    (writerRun BATCH_SIZE [some [0], none] : WState Nat).totalFacts
        = ([some [0], none].map (fun o => (o.getD []).length)).sum ∧
    ((writerRun BATCH_SIZE [some [0], none] : WState Nat).uploads.map Upload.size).sum
        = (writerRun BATCH_SIZE [some [0], none] : WState Nat).totalFacts ∧
    modesOK (writerRun BATCH_SIZE [some [0], none] : WState Nat).uploads ∧
    ∀ u ∈ (writerRun BATCH_SIZE [some [0], none] : WState Nat).uploads,
      u.final = false → u.atProcessed % BATCH_SIZE = 0 :=
  c7_batched_writer Nat [some [0], none]

/-! ## C8: validation gates publishing -/

/-- C8: the facts transform publishes only when validation passes — when the
total written row count is below the 100,000 minimum the run raises a
`ValueError` before `publish` is reached, and any run that reaches `publish`
(`.ok`) has at least 100,000 rows. -/
theorem c8_validation_gates_publish (α : Type) (outcomes : List (Option (List α))) :
    (deltaRowCount (writerRun BATCH_SIZE outcomes).uploads < 100000 →
      xbrlMainRun outcomes =
        .error ("Expected at least 100,000 rows, got "
          ++ toString (deltaRowCount (writerRun BATCH_SIZE outcomes).uploads))) ∧
    (∀ (s : WState α) (d : String), xbrlMainRun outcomes = .ok (s, d) →
      100000 ≤ deltaRowCount (writerRun BATCH_SIZE outcomes).uploads) := by
  constructor
  · intro h
    simp [xbrlMainRun, h]
  · intro s d hok
    by_contra hlt
    push_neg at hlt
    simp [xbrlMainRun, hlt] at hok

/-- C8 witness: with no extraction outcomes the row count is 0, so the run
errors out instead of publishing. -/
theorem c8_validation_witness :
    xbrlMainRun ([] : List (Option (List Nat))) =
      .error ("Expected at least 100,000 rows, got "
        ++ toString (deltaRowCount
          (writerRun BATCH_SIZE ([] : List (Option (List Nat)))).uploads)) :=
  (c8_validation_gates_publish Nat []).1 (by decide)

/-! ## C4 and C9: per-fact emission and derived fields -/

/-- Inversion of a successful `factStep`: an emitted record comes from a fact
with a parseable `filed` date strictly newer than the watermark and a usable
period, and its date-derived fields are computed from the period's end date. -/
theorem factStep_inversion {ctx : FactCtx} {l m : Nat} {fact : FactEntry}
    {r : FactRecord} (h : (factStep ctx l m fact).2 = some r) :
    ∃ fs fd sd ed idt pt, fact.filed = some fs ∧ parseDate fs = some fd ∧
      l < fd ∧ periodDates fact = some (sd, ed, idt, pt) ∧
      r.end_date = ed ∧ r.fact_year = yearOf ed ∧
      r.fact_quarter = quarterLabel ed ∧ r.fact_month = monthLabel ed := by
  rcases hfil : fact.filed with _ | fs
  · simp [factStep, hfil] at h
  · rcases hpd : parseDate fs with _ | fd
    · simp [factStep, hfil, hpd] at h
    · rcases hper : periodDates fact with _ | ⟨sd, ed, idt, pt⟩
      · simp only [factStep, hfil, hpd, hper] at h
        split_ifs at h
      · simp only [factStep, hfil, hpd, hper] at h
        by_cases hle : fd ≤ l
        · rw [if_pos hle] at h
          simp at h
        · rw [if_neg hle] at h
          simp only [Option.some_inj] at h
          subst h
          exact ⟨fs, fd, sd, ed, idt, pt, rfl, hpd, by omega, rfl, rfl, rfl, rfl, rfl⟩

/-- `periodDates` reads only the `start`/`end`/`instant` fields, so changing
`filed` does not change it. -/
theorem periodDates_set_filed (fact : FactEntry) (f : Option String) :
    periodDates { fact with filed := f } = periodDates fact := rfl

/-- Mostly-advanced `most_recent_filing`: `factStep` never decreases it. -/
theorem factStep_fst_le (ctx : FactCtx) (l m : Nat) (fact : FactEntry) :
    m ≤ (factStep ctx l m fact).1 := by
  rcases hfil : fact.filed with _ | fs
  · simp [factStep, hfil]
  · rcases hpd : parseDate fs with _ | fd
    · simp [factStep, hfil, hpd]
    · rcases hper : periodDates fact with _ | ⟨sd, ed, idt, pt⟩ <;>
        simp only [factStep, hfil, hpd, hper] <;>
        split_ifs <;> simp <;> omega

/-- The fact of the claim's facts-stream example: value 100, end date
2023-01-01, filed 2023-02-01. -/
def c4ExampleFact : FactEntry :=
  { filed := some "2023-02-01", start := none, end_ := some "2023-01-01",
    instant := none, val := some 100, fy := some 2023, fp := some "Q1",
    form := some "10-K", accn := some "acc-0001" }

/-- Snapshot holding the example fact under `us-gaap / Revenue / USD`. -/
def c4ExampleSnapshot : FactsSnapshot :=
  { entityName := "ACME Inc."
    facts := [("us-gaap",
      [("Revenue",
        { label := "Revenue", description := "Total revenue",
          units := [("USD", [c4ExampleFact])] })])] }

/-- Fetch oracle returning the example snapshot for CIK `"1"`. -/
def c4ExampleFetch : String → Option FactsSnapshot :=
  fun c => if c = "1" then some c4ExampleSnapshot else none

/-- C4: a candidate fact (parseable `filed`, usable period) is emitted iff its
`filed` date is strictly newer than the entity's watermark; the end/instant
date does not gate emission — with watermark 2023-01-15, the example fact
(end 2023-01-01, filed 2023-02-01) yields exactly 1 record. -/
theorem c4_filed_gates_emission :
    (∀ (ctx : FactCtx) (lastUpdate mostRecent : Nat) (fact : FactEntry)
        (fs : String) (fd : Nat),
      fact.filed = some fs → parseDate fs = some fd →
      (periodDates fact).isSome →
      (((factStep ctx lastUpdate mostRecent fact).2).isSome ↔ lastUpdate < fd)) ∧
    (processXbrlFacts c4ExampleFetch [("1", 20230115)]
        [{ cik_str := "1", ticker := "AAA", title := "ACME Inc." }]).1.length = 1 := by
  constructor
  · intro ctx lastUpdate mostRecent fact fs fd hfs hfd hper
    rcases Option.isSome_iff_exists.mp hper with ⟨⟨sd, ed, idt, pt⟩, hv⟩
    simp only [factStep, hfs, hfd, hv]
    split_ifs <;> simp <;> omega
  · rfl

/-- C4 witness: the gating equivalence instantiated at the example fact and the
example watermark: the fact is emitted because 2023-02-01 > 2023-01-15. -/
theorem c4_filed_gates_emission_witness :
    ((factStep
        { cik := "1", ticker := "AAA", entityName := "ACME Inc.",
          taxonomy := "us-gaap", concept := "Revenue", label := "Revenue",
          description := "Total revenue", unitType := "USD" }
        20230115 20230115 c4ExampleFact).2).isSome ↔ 20230115 < 20230201 :=
  (c4_filed_gates_emission.1 _ 20230115 20230115 c4ExampleFact
    "2023-02-01" 20230201 rfl (by decide) (by decide))

/-- The fact of the derived-fields example: end 2023-01-01, filed 2023-02-01. -/
def c9ExampleFact : FactEntry :=
  { filed := some "2023-02-01", start := none, end_ := some "2023-01-01",
    instant := none, val := some 100, fy := some 2023, fp := some "Q1",
    form := some "10-K", accn := some "acc-0002" }

/-- Snapshot holding the derived-fields example fact. -/
def c9ExampleSnapshot : FactsSnapshot :=
  { entityName := "ACME Inc."
    facts := [("us-gaap",
      [("Assets",
        { label := "Assets", description := "Total assets",
          units := [("USD", [c9ExampleFact])] })])] }

/-- Fetch oracle returning the derived-fields example snapshot for CIK `"1"`. -/
def c9ExampleFetch : String → Option FactsSnapshot :=
  fun c => if c = "1" then some c9ExampleSnapshot else none

/-- C9: the derived fields of every emitted fact record are pure functions of
the record's event end date (end date, with instant as end date in the instant
branch): `fact_year`/`fact_quarter`/`fact_month` are computed from `end_date`;
they do not depend on `filed`, the watermark or any other state; and the
example fact with end 2023-01-01 and filed 2023-02-01 has `fact_quarter`
`"2023-Q1"`. -/
theorem c9_derived_fields :
    (∀ (ctx : FactCtx) (lastUpdate mostRecent : Nat) (fact : FactEntry)
        (r : FactRecord),
      (factStep ctx lastUpdate mostRecent fact).2 = some r →
      r.fact_year = yearOf r.end_date ∧ r.fact_quarter = quarterLabel r.end_date ∧
        r.fact_month = monthLabel r.end_date) ∧
    (∀ (ctx ctx' : FactCtx) (l l' m m' : Nat) (fact : FactEntry)
        (f1 f2 : Option String) (r1 r2 : FactRecord),
      (factStep ctx l m { fact with filed := f1 }).2 = some r1 →
      (factStep ctx' l' m' { fact with filed := f2 }).2 = some r2 →
      r1.fact_year = r2.fact_year ∧ r1.fact_quarter = r2.fact_quarter ∧
        r1.fact_month = r2.fact_month) ∧
    ((processXbrlFacts c9ExampleFetch [("1", 20230115)]
        [{ cik_str := "1", ticker := "AAA", title := "ACME Inc." }]).1.map
      (fun r => r.fact_quarter) = ["2023-Q1"]) := by
  refine ⟨?_, ?_, ?_⟩
  · intro ctx lastUpdate mostRecent fact r h
    obtain ⟨fs, fd, sd, ed, idt, pt, _, _, _, _, hed, hy, hq, hm⟩ :=
      factStep_inversion h
    rw [hed, hy, hq, hm]
    exact ⟨rfl, rfl, rfl⟩
  · intro ctx ctx' l l' m m' fact f1 f2 r1 r2 h1 h2
    obtain ⟨fs1, fd1, sd1, ed1, idt1, pt1, _, _, _, hper1, _, hy1, hq1, hm1⟩ :=
      factStep_inversion h1
    obtain ⟨fs2, fd2, sd2, ed2, idt2, pt2, _, _, _, hper2, _, hy2, hq2, hm2⟩ :=
      factStep_inversion h2
    rw [periodDates_set_filed] at hper1 hper2
    rw [hper1] at hper2
    obtain ⟨rfl, rfl, rfl, rfl⟩ :
        sd1 = sd2 ∧ ed1 = ed2 ∧ idt1 = idt2 ∧ pt1 = pt2 := by
      simpa using hper2
    rw [hy1, hq1, hm1, hy2, hq2, hm2]
    exact ⟨rfl, rfl, rfl⟩
  · rfl

/-- C9 witness: the derived-fields equations instantiated at the example fact's
emitted record. -/
theorem c9_derived_fields_witness :
    ∃ r : FactRecord,
      (factStep
          { cik := "1", ticker := "AAA", entityName := "ACME Inc.",
            taxonomy := "us-gaap", concept := "Assets", label := "Assets",
            description := "Total assets", unitType := "USD" }
          20230115 20230115 c9ExampleFact).2 = some r ∧
      r.fact_year = yearOf r.end_date ∧ r.fact_quarter = quarterLabel r.end_date ∧
        r.fact_month = monthLabel r.end_date := by
  refine ⟨_, rfl, ?_⟩
  exact c9_derived_fields.1 _ 20230115 20230115 c9ExampleFact _ rfl

/-! ## C1: watermark behaviour across a run -/

theorem unitFactsLoop_fst_le (ctx : FactCtx) (l : Nat) :
    ∀ (facts : List FactEntry) (mr : Nat) (acc : List FactRecord),
      mr ≤ (unitFactsLoop ctx l facts mr acc).1 := by
  intro facts
  induction facts with
  | nil => intro mr acc; simp [unitFactsLoop]
  | cons f rest ih =>
    intro mr acc
    have h1 := factStep_fst_le ctx l mr f
    rcases h2 : (factStep ctx l mr f).2 with _ | r <;>
      simp only [unitFactsLoop, h2] <;>
      exact le_trans h1 (ih _ _)

theorem unitsLoop_fst_le (ctx : FactCtx) (l : Nat) :
    ∀ (units : List (String × List FactEntry)) (mr : Nat) (acc : List FactRecord),
      mr ≤ (unitsLoop ctx l units mr acc).1 := by
  intro units
  induction units with
  | nil => intro mr acc; simp [unitsLoop]
  | cons u rest ih =>
    intro mr acc
    obtain ⟨unitType, facts⟩ := u
    simp only [unitsLoop]
    exact le_trans (unitFactsLoop_fst_le _ l facts mr acc) (ih _ _)

theorem conceptsLoop_fst_le (ctx : FactCtx) (l : Nat) :
    ∀ (concepts : List (String × ConceptData)) (mr : Nat) (acc : List FactRecord),
      mr ≤ (conceptsLoop ctx l concepts mr acc).1 := by
  intro concepts
  induction concepts with
  | nil => intro mr acc; simp [conceptsLoop]
  | cons c rest ih =>
    intro mr acc
    obtain ⟨concept, cdata⟩ := c
    simp only [conceptsLoop]
    exact le_trans (unitsLoop_fst_le _ l cdata.units mr acc) (ih _ _)

theorem taxonomiesLoop_fst_le (ctx : FactCtx) (l : Nat) :
    ∀ (taxonomies : List (String × List (String × ConceptData))) (mr : Nat)
      (acc : List FactRecord),
      mr ≤ (taxonomiesLoop ctx l taxonomies mr acc).1 := by
  intro taxonomies
  induction taxonomies with
  | nil => intro mr acc; simp [taxonomiesLoop]
  | cons t rest ih =>
    intro mr acc
    obtain ⟨taxonomy, concepts⟩ := t
    simp only [taxonomiesLoop]
    exact le_trans (conceptsLoop_fst_le _ l concepts mr acc) (ih _ _)

theorem entityFacts_fst_le (cik ticker : String) (snap : FactsSnapshot)
    (l : Nat) : l ≤ (entityFacts cik ticker snap l).1 :=
  taxonomiesLoop_fst_le _ l snap.facts l []

theorem xbrlFold_lookup_ge (fetch : String → Option FactsSnapshot)
    (lastUpdates : List (String × Nat)) :
    ∀ (rows : List TickerRow) (acc : List FactRecord × List (String × Nat)),
      (∀ k v, alookup k acc.2 = some v → alookupD lastUpdates k date1900 ≤ v) →
      ∀ k v,
        alookup k (rows.foldl (xbrlEntityStep fetch lastUpdates) acc).2 = some v →
        alookupD lastUpdates k date1900 ≤ v := by
  intro rows
  induction rows with
  | nil => intro acc h k v hv; exact h k v (by simpa using hv)
  | cons row rest ih =>
    intro acc h
    simp only [List.foldl_cons]
    apply ih
    intro k v hv
    rcases hf : fetch row.cik_str with _ | snap <;>
      simp only [xbrlEntityStep, hf] at hv
    · exact h k v hv
    · by_cases hk : row.cik_str = k
      · subst hk
        rw [alookup_ainsert_self] at hv
        injection hv with hv
        rw [← hv]
        split_ifs with hlt
        · exact le_of_lt hlt
        · exact le_refl _
      · rw [alookup_ainsert_of_ne _ _ hk] at hv
        exact h k v hv

theorem xbrlFold_lookup_none (fetch : String → Option FactsSnapshot)
    (lastUpdates : List (String × Nat)) (k : String) (hk : fetch k = none) :
    ∀ (rows : List TickerRow) (acc : List FactRecord × List (String × Nat)),
      alookup k acc.2 = none →
      alookup k (rows.foldl (xbrlEntityStep fetch lastUpdates) acc).2 = none := by
  intro rows
  induction rows with
  | nil => intro acc h; simpa using h
  | cons row rest ih =>
    intro acc h
    simp only [List.foldl_cons]
    apply ih
    rcases hf : fetch row.cik_str with _ | snap <;>
      simp only [xbrlEntityStep, hf]
    · exact h
    · have hne : row.cik_str ≠ k := by
        intro he
        rw [he, hk] at hf
        exact Option.noConfusion hf
      rw [alookup_ainsert_of_ne _ _ hne]
      exact h

theorem filingsLoop_fst_le (cik ticker companyName : String) (l : Nat)
    (r : RecentFilings) :
    ∀ (forms : List String) (i mr : Nat) (acc : List FilingRecord)
      (res : Nat) (recs : List FilingRecord),
      filingsLoop cik ticker companyName l r i forms mr acc = .ok (res, recs) →
      mr ≤ res := by
  intro forms
  induction forms with
  | nil =>
    intro i mr acc res recs h
    simp only [filingsLoop, Except.ok.injEq, Prod.mk.injEq] at h
    omega
  | cons formType rest ih =>
    intro i mr acc res recs h
    simp only [filingsLoop] at h
    split_ifs at h with hstop
    · simp only [Except.ok.injEq, Prod.mk.injEq] at h
      omega
    · rcases hpd : parseDate (r.filingDate.getD i "") with _ | fd <;>
        simp only [hpd] at h
      · exact absurd h (by simp)
      · split_ifs at h with hle hlt
        · exact ih _ _ _ _ _ h
        · exact le_trans (by omega) (ih _ _ _ _ _ h)
        · exact ih _ _ _ _ _ h

theorem filingsFold_lookup_ge (fetch : String → Option SubmissionsSnapshot)
    (lastUpdates : List (String × Nat)) :
    ∀ (rows : List TickerRow)
      (acc : Except String (List FilingRecord × List (String × Nat))),
      (∀ recs nlu k v, acc = .ok (recs, nlu) → alookup k nlu = some v →
        alookupD lastUpdates k date1900 ≤ v) →
      ∀ recs nlu k v,
        rows.foldl (filingsEntityStep fetch lastUpdates) acc = .ok (recs, nlu) →
        alookup k nlu = some v → alookupD lastUpdates k date1900 ≤ v := by
  intro rows
  induction rows with
  | nil =>
    intro acc h recs nlu k v hfold hv
    exact h recs nlu k v (by simpa using hfold) hv
  | cons row rest ih =>
    intro acc h
    simp only [List.foldl_cons]
    apply ih
    intro recs nlu k v hstep hv
    rcases acc with e | ⟨allRecs, nlu0⟩
    · simp [filingsEntityStep] at hstep
    · rcases hf : fetch row.cik_str with _ | snap <;>
        simp only [filingsEntityStep, hf] at hstep
      · simp only [Except.ok.injEq, Prod.mk.injEq] at hstep
        rcases hstep with ⟨rfl, rfl⟩
        exact h _ _ k v rfl hv
      · rcases hrec : snap.recent with _ | rr <;> simp only [hrec] at hstep
        · simp only [Except.ok.injEq, Prod.mk.injEq] at hstep
          rcases hstep with ⟨rfl, rfl⟩
          exact h _ _ k v rfl hv
        · rcases hloop : filingsLoop row.cik_str row.ticker row.title
              (alookupD lastUpdates row.cik_str date1900) rr 0 rr.form
              (alookupD lastUpdates row.cik_str date1900) [] with e' | ⟨mr, recs'⟩ <;>
            rw [hloop] at hstep
          · exact absurd hstep (by simp)
          simp only [Except.ok.injEq, Prod.mk.injEq] at hstep
          rcases hstep with ⟨rfl, rfl⟩
          by_cases hk : row.cik_str = k
          · subst hk
            rw [alookup_ainsert_self] at hv
            injection hv with hv
            rw [← hv]
            split_ifs with hlt
            · exact le_of_lt hlt
            · exact le_refl _
          · rw [alookup_ainsert_of_ne _ _ hk] at hv
            exact h allRecs nlu0 k v rfl hv

theorem filingsFold_lookup_none (fetch : String → Option SubmissionsSnapshot)
    (lastUpdates : List (String × Nat)) (k : String)
    (hk : ∀ snap, fetch k = some snap → snap.recent = none) :
    ∀ (rows : List TickerRow)
      (acc : Except String (List FilingRecord × List (String × Nat))),
      (∀ recs nlu, acc = .ok (recs, nlu) → alookup k nlu = none) →
      ∀ recs nlu,
        rows.foldl (filingsEntityStep fetch lastUpdates) acc = .ok (recs, nlu) →
        alookup k nlu = none := by
  intro rows
  induction rows with
  | nil =>
    intro acc h recs nlu hfold
    exact h recs nlu (by simpa using hfold)
  | cons row rest ih =>
    intro acc h
    simp only [List.foldl_cons]
    apply ih
    intro recs nlu hstep
    rcases acc with e | ⟨allRecs, nlu0⟩
    · simp [filingsEntityStep] at hstep
    · rcases hf : fetch row.cik_str with _ | snap <;>
        simp only [filingsEntityStep, hf] at hstep
      · simp only [Except.ok.injEq, Prod.mk.injEq] at hstep
        rcases hstep with ⟨rfl, rfl⟩
        exact h _ _ rfl
      · rcases hrec : snap.recent with _ | rr <;> simp only [hrec] at hstep
        · simp only [Except.ok.injEq, Prod.mk.injEq] at hstep
          rcases hstep with ⟨rfl, rfl⟩
          exact h _ _ rfl
        · rcases hloop : filingsLoop row.cik_str row.ticker row.title
              (alookupD lastUpdates row.cik_str date1900) rr 0 rr.form
              (alookupD lastUpdates row.cik_str date1900) [] with e' | ⟨mr, recs'⟩ <;>
            rw [hloop] at hstep
          · exact absurd hstep (by simp)
          simp only [Except.ok.injEq, Prod.mk.injEq] at hstep
          rcases hstep with ⟨rfl, rfl⟩
          have hne : row.cik_str ≠ k := by
            intro he
            rw [he] at hf
            rw [hk snap hf] at hrec
            exact Option.noConfusion hrec
          rw [alookup_ainsert_of_ne _ _ hne]
          exact h allRecs nlu0 rfl

/-- C1 (claim as stated is falsified): a single-company run whose fetch fails
ends with the company's previous watermark dropped from the stored state (the
saved map has no entry at all), not kept unchanged. -/
theorem c1_counterexample :
    alookup "1" [("1", (20230501 : Nat))] = some 20230501 ∧
    alookup "1" (processXbrlFacts (fun _ => none) [("1", 20230501)]
        [{ cik_str := "1", ticker := "AAA", title := "ACME Inc." }]).2 = none :=
  ⟨rfl, rfl⟩

/-- C1 (amended): watermark monotonicity holds for every entity that still has
an entry in the stored map — for both the filings and the facts incremental
transforms, any entity with a watermark before and after the run has
after ≥ before — but an entity whose fetch failed (or, in the filings
transform, whose snapshot had no recent-filings object) is dropped from the
saved state on a non-empty run rather than keeping its previous watermark,
because the saved map is rebuilt from scratch and such entities never reach
the state-update step. -/
theorem c1_watermark_amended :
    (∀ (fetch : String → Option FactsSnapshot) (lastUpdates : List (String × Nat))
        (ts : List TickerRow) (k : String) (v w : Nat),
      alookup k (processXbrlFacts fetch lastUpdates ts).2 = some w →
      alookup k lastUpdates = some v → v ≤ w) ∧
    (∀ (fetch : String → Option FactsSnapshot) (lastUpdates : List (String × Nat))
        (ts : List TickerRow) (k : String),
      ts ≠ [] → fetch k = none →
      alookup k (processXbrlFacts fetch lastUpdates ts).2 = none) ∧
    (∀ (fetch : String → Option SubmissionsSnapshot)
        (lastUpdates : List (String × Nat)) (ts : List TickerRow)
        (recs : List FilingRecord) (after : List (String × Nat))
        (k : String) (v w : Nat),
      processFilings fetch lastUpdates ts = .ok (recs, after) →
      alookup k after = some w → alookup k lastUpdates = some v → v ≤ w) ∧
    (∀ (fetch : String → Option SubmissionsSnapshot)
        (lastUpdates : List (String × Nat)) (ts : List TickerRow)
        (recs : List FilingRecord) (after : List (String × Nat)) (k : String),
      ts ≠ [] → (∀ snap, fetch k = some snap → snap.recent = none) →
      processFilings fetch lastUpdates ts = .ok (recs, after) →
      alookup k after = none) := by
  refine ⟨?_, ?_, ?_, ?_⟩
  · intro fetch lastUpdates ts k v w hw hv
    cases ts with
    | nil =>
      simp only [processXbrlFacts] at hw
      rw [hv] at hw
      injection hw with hw
      omega
    | cons t rest =>
      have hge := xbrlFold_lookup_ge fetch lastUpdates (t :: rest) ([], [])
        (by intro k' v' hv'; simp [alookup] at hv') k w hw
      rwa [alookupD, hv] at hge
  · intro fetch lastUpdates ts k hts hk
    cases ts with
    | nil => exact absurd rfl hts
    | cons t rest =>
      exact xbrlFold_lookup_none fetch lastUpdates k hk (t :: rest) ([], []) rfl
  · intro fetch lastUpdates ts recs after k v w hrun hw hv
    cases ts with
    | nil =>
      simp only [processFilings, Except.ok.injEq, Prod.mk.injEq] at hrun
      rcases hrun with ⟨rfl, rfl⟩
      rw [hv] at hw
      injection hw with hw
      omega
    | cons t rest =>
      have hge := filingsFold_lookup_ge fetch lastUpdates (t :: rest) (.ok ([], []))
        (by
          intro recs' nlu' k' v' hacc hv'
          simp only [Except.ok.injEq, Prod.mk.injEq] at hacc
          rcases hacc with ⟨rfl, rfl⟩
          simp [alookup] at hv')
        recs after k w hrun hw
      rwa [alookupD, hv] at hge
  · intro fetch lastUpdates ts recs after k hts hk hrun
    cases ts with
    | nil => exact absurd rfl hts
    | cons t rest =>
      exact filingsFold_lookup_none fetch lastUpdates k hk (t :: rest) (.ok ([], []))
        (by
          intro recs' nlu' hacc
          simp only [Except.ok.injEq, Prod.mk.injEq] at hacc
          rcases hacc with ⟨rfl, rfl⟩
          rfl)
        recs after hrun

/-- A fact filed 2023-02-01 used to exercise the amended watermark theorem. -/
def c1WitFact : FactEntry :=
  { filed := some "2023-02-01", start := none, end_ := some "2023-01-01",
    instant := none, val := some 1, fy := none, fp := none, form := none,
    accn := none }

/-- A one-fact snapshot used to exercise the amended watermark theorem. -/
def c1WitSnapshot : FactsSnapshot :=
  { entityName := "W"
    facts := [("t", [("c",
      { label := "", description := "", units := [("u", [c1WitFact])] })])] }

/-- Facts-stream fetch oracle of the watermark witness. -/
def c1WitFetch : String → Option FactsSnapshot :=
  fun c => if c = "1" then some c1WitSnapshot else none

/-- The single input row of the watermark witness. -/
def c1WitRow : TickerRow := { cik_str := "1", ticker := "T", title := "W" }

/-- A one-filing recent object (filed 2023-06-01) of the watermark witness. -/
def c1WitFilRecent : RecentFilings :=
  { form := ["10-K"], filingDate := ["2023-06-01"], accessionNumber := ["a"],
    fileNumber := [], filmNumber := [], acceptanceDateTime := [], reportDate := [],
    isXBRL := [], isInlineXBRL := [], primaryDocument := [],
    primaryDocDescription := [] }

/-- Filings-stream fetch oracle of the watermark witness. -/
def c1WitFilFetch : String → Option SubmissionsSnapshot :=
  fun c => if c = "1" then some { recent := some c1WitFilRecent } else none

/-- C1 witness: the amended watermark theorem instantiated at concrete runs —
the facts run advances entity 1's watermark from 2023-01-15 to 2023-02-01 and
its stored entry is monotone; an entity whose fetch fails has no entry; and
likewise for the filings run, whose watermark advances to 2023-06-01. -/
theorem c1_watermark_amended_witness :
    ((20230115 : Nat) ≤ 20230201) ∧
    (alookup "2" (processXbrlFacts c1WitFetch [("1", 20230115)] [c1WitRow]).2
      = none) ∧
    ((20230115 : Nat) ≤ 20230601) ∧
    (alookup "2" [("1", (20230601 : Nat))] = none) := by
  refine ⟨?_, ?_, ?_, ?_⟩
  · exact c1_watermark_amended.1 c1WitFetch [("1", 20230115)] [c1WitRow] "1"
      20230115 20230201 rfl rfl
  · exact c1_watermark_amended.2.1 c1WitFetch [("1", 20230115)] [c1WitRow] "2"
      (by simp) rfl
  · exact c1_watermark_amended.2.2.1 c1WitFilFetch [("1", 20230115)] [c1WitRow]
      _ [("1", 20230601)] "1" 20230115 20230601 rfl rfl rfl
  · exact c1_watermark_amended.2.2.2 c1WitFilFetch [("1", 20230115)] [c1WitRow]
      _ [("1", 20230601)] "2" (by simp)
      (fun snap hs => by
        rw [show c1WitFilFetch "2" = none from rfl] at hs
        exact Option.noConfusion hs)
      rfl

/-! ## C5: idempotence and resumability of the ingest loop -/

theorem insertCompleted_mem (k x : String) (l : List String) :
    x ∈ insertCompleted k l ↔ x ∈ l ∨ x = k := by
  unfold insertCompleted
  split_ifs with h
  · constructor
    · exact Or.inl
    · rintro (hx | rfl)
      · exact hx
      · exact h
  · simp [List.mem_append]

theorem ingestLoop_snd {α : Type} (kp : String)
    (sn : String → FetchError → RawDoc α) (f : Company → FetchOutcome α) :
    ∀ (pending : List Company) (st : IngestState α) (fetched : List Company),
      (ingestLoop kp sn f pending st fetched).2 = fetched ++ pending := by
  intro pending
  induction pending with
  | nil => intro st fetched; simp [ingestLoop]
  | cons c rest ih =>
    intro st fetched
    simp only [ingestLoop]
    rw [ih]
    simp

theorem ingestRun_snd {α : Type} (kp : String)
    (sn : String → FetchError → RawDoc α) (f : Company → FetchOutcome α)
    (companies : List Company) (st : IngestState α) :
    (ingestRun kp sn f companies st).2 =
      companies.filter (fun c => decide (c.cik_str ∉ st.completed)) := by
  simp only [ingestRun]
  rcases hpend : companies.filter (fun c => decide (c.cik_str ∉ st.completed)) with
    _ | ⟨c, rest⟩ <;> rw [hpend]
  show (ingestLoop kp sn f (c :: rest) st []).2 = c :: rest
  rw [ingestLoop_snd]
  simp

theorem ingestLoopFuel_completed_mem {α : Type} (kp : String)
    (sn : String → FetchError → RawDoc α) (f : Company → FetchOutcome α) :
    ∀ (fuel : Nat) (pending : List Company) (st : IngestState α)
      (fetched : List Company) (x : String),
      x ∈ (ingestLoopFuel kp sn f fuel pending st fetched).1.completed ↔
        x ∈ st.completed ∨ x ∈ (pending.take fuel).map Company.cik_str := by
  intro fuel
  induction fuel with
  | zero => intro pending st fetched x; simp [ingestLoopFuel]
  | succ n ih =>
    intro pending st fetched x
    cases pending with
    | nil => simp [ingestLoopFuel]
    | cons c rest =>
      simp only [ingestLoopFuel, List.take_succ_cons, List.map_cons, List.mem_cons]
      rw [ih]
      simp only [ingestEntity, insertCompleted_mem]
      tauto

theorem ingestRunFuel_completed_mem {α : Type} (kp : String)
    (sn : String → FetchError → RawDoc α) (f : Company → FetchOutcome α)
    (fuel : Nat) (companies : List Company) (st : IngestState α) (x : String) :
    x ∈ (ingestRunFuel kp sn f fuel companies st).1.completed ↔
      x ∈ st.completed ∨
        x ∈ ((companies.filter (fun c => decide (c.cik_str ∉ st.completed))).take
          fuel).map Company.cik_str := by
  simp only [ingestRunFuel]
  rcases hpend : companies.filter (fun c => decide (c.cik_str ∉ st.completed)) with
    _ | ⟨c, rest⟩ <;> rw [hpend]
  · simp
  · exact ingestLoopFuel_completed_mem kp sn f fuel (c :: rest) st [] x

theorem filter_not_mem_take_eq_drop :
    ∀ (l : List Company) (k : Nat), (l.map Company.cik_str).Nodup →
      l.filter (fun c =>
          decide (c.cik_str ∉ (l.take k).map Company.cik_str)) = l.drop k := by
  intro l
  induction l with
  | nil => intro k h; simp
  | cons c rest ih =>
    intro k h
    rw [List.map_cons, List.nodup_cons] at h
    cases k with
    | zero => simp
    | succ n =>
      simp only [List.take_succ_cons, List.map_cons, List.drop_succ_cons]
      rw [List.filter_cons_of_neg (by simp)]
      have hpt : ∀ x ∈ rest,
          (decide (x.cik_str ∉ c.cik_str :: (rest.take n).map Company.cik_str)) =
            (decide (x.cik_str ∉ (rest.take n).map Company.cik_str)) := by
        intro x hx
        have hne : x.cik_str ≠ c.cik_str := by
          intro he
          exact h.1 (he ▸ List.mem_map_of_mem Company.cik_str hx)
        simp [List.mem_cons, hne]
      rw [List.filter_congr hpt]
      exact ih n h.2

/-- C5: (idempotence) when every entity is already in the Completion Set the
run returns immediately — zero fetches, state object unchanged; (no retries) a
fetched entity is never one that was already completed; (resumability) after an
interrupted run that processed `k` of the pending entities, a re-run fetches
exactly the pending entities from position `k` on, in input order — given that
the pending entities have pairwise distinct identifiers. -/
theorem c5_idempotent_resumable (α : Type) (kp : String)
    (sn : String → FetchError → RawDoc α) (f : Company → FetchOutcome α)
    (companies : List Company) (st : IngestState α) (k : Nat) :
    ((∀ c ∈ companies, c.cik_str ∈ st.completed) →
      ingestRun kp sn f companies st = (st, [])) ∧
    (∀ c ∈ (ingestRun kp sn f companies st).2, c.cik_str ∉ st.completed) ∧
    (((companies.filter (fun c => decide (c.cik_str ∉ st.completed))).map
        Company.cik_str).Nodup →
      (ingestRun kp sn f companies
          (ingestRunFuel kp sn f k companies st).1).2 =
        (companies.filter (fun c => decide (c.cik_str ∉ st.completed))).drop k) := by
  refine ⟨?_, ?_, ?_⟩
  · intro h
    have hpend : companies.filter (fun c => decide (c.cik_str ∉ st.completed)) = [] :=
      List.filter_eq_nil_iff.mpr (fun c hc => by simpa using h c hc)
    simp only [ingestRun, hpend]
  · intro c hc
    rw [ingestRun_snd] at hc
    simpa using (List.mem_filter.mp hc).2
  · intro hnd
    rw [ingestRun_snd]
    have hpt : ∀ c ∈ companies,
        (decide (c.cik_str ∉ (ingestRunFuel kp sn f k companies st).1.completed)) =
          ((fun c => decide (c.cik_str ∉
              ((companies.filter (fun c => decide (c.cik_str ∉ st.completed))).take
                k).map Company.cik_str)) c &&
            (fun c => decide (c.cik_str ∉ st.completed)) c) := by
      intro c hc
      by_cases h1 : c.cik_str ∈ st.completed <;>
        by_cases h2 : c.cik_str ∈
          ((companies.filter (fun c => decide (c.cik_str ∉ st.completed))).take
            k).map Company.cik_str <;>
        simp [ingestRunFuel_completed_mem, h1, h2]
    rw [List.filter_congr hpt, ← List.filter_filter]
    exact filter_not_mem_take_eq_drop _ k hnd

/-- First company of the ingest witness. -/
def c5Company1 : Company := { cik_str := "1", ticker := "A" }

/-- Second company of the ingest witness. -/
def c5Company2 : Company := { cik_str := "2", ticker := "B" }

/-- A fetch oracle that always fails (failed entities also count as completed). -/
def c5Fetch : Company → FetchOutcome Unit :=
  fun _ => .failure { status := none, msg := "connection reset" }

/-- C5 witness: with both companies already completed, a run performs zero
fetches and leaves the state unchanged; a fetched company was not completed
before; and after a run interrupted after 1 of 2 pending companies, the re-run
fetches exactly the second one. -/
theorem c5_idempotent_resumable_witness :
    (ingestRun "submissions/" (submissionsFailureSentinel (α := Unit)) c5Fetch
        [c5Company1, c5Company2] { store := [], completed := ["1", "2"] } =
      ({ store := [], completed := ["1", "2"] }, [])) ∧
    (c5Company1.cik_str ∉
      ({ store := [], completed := [] } : IngestState Unit).completed) ∧
    ((ingestRun "submissions/" (submissionsFailureSentinel (α := Unit)) c5Fetch
        [c5Company1, c5Company2]
        (ingestRunFuel "submissions/" (submissionsFailureSentinel (α := Unit))
          c5Fetch 1 [c5Company1, c5Company2]
          { store := [], completed := [] }).1).2 =
      ([c5Company1, c5Company2].filter (fun c => decide (c.cik_str ∉
        ({ store := [], completed := [] } : IngestState Unit).completed))).drop 1) := by
  refine ⟨?_, ?_, ?_⟩
  · exact (c5_idempotent_resumable Unit "submissions/" submissionsFailureSentinel
      c5Fetch [c5Company1, c5Company2] { store := [], completed := ["1", "2"] } 0).1
      (by decide)
  · exact (c5_idempotent_resumable Unit "submissions/" submissionsFailureSentinel
      c5Fetch [c5Company1, c5Company2] { store := [], completed := [] } 0).2.1
      c5Company1 (by decide)
  · exact (c5_idempotent_resumable Unit "submissions/" submissionsFailureSentinel
      c5Fetch [c5Company1, c5Company2] { store := [], completed := [] } 1).2.2
      (by decide)

/-! ## C6: data is persisted before completion state -/

theorem c6_inv_step {α : Type} {kp : String} {sn : String → FetchError → RawDoc α}
    {f : Company → FetchOutcome α} {s s' : MState α}
    (hinv : MInv kp s) (hstep : IngStep kp sn f s s') : MInv kp s' := by
  cases hstep with
  | persistData c rest s hq hc =>
    refine ⟨?_, ?_⟩
    · intro id_ hid
      exact alookup_ainsert_isSome _ _ (hinv.1 id_ hid)
    · intro c' hc'
      simp only [Option.some_inj] at hc'
      subst hc'
      simp [alookup_ainsert_self]
  | persistState c s hc =>
    refine ⟨?_, ?_⟩
    · intro id_ hid
      rcases (insertCompleted_mem c.cik_str id_ s.completed).mp hid with hid | rfl
      · exact hinv.1 id_ hid
      · exact hinv.2 c hc
    · intro c' hc'
      simp at hc'

/-- C6: the ingest loop persists an entity's raw snapshot (payload or sentinel)
strictly before adding the entity to the Completion Set — the two writes are
the two step kinds, in that order, of the step relation derived from the loop
body — so in every state reachable from a state satisfying the store/state
invariant, every identifier in the Completion Set has a snapshot in the Raw
Store (and so does the in-flight entity, if any). -/
theorem c6_data_before_state (α : Type) (kp : String)
    (sn : String → FetchError → RawDoc α) (f : Company → FetchOutcome α)
    (s0 s : MState α) (hinv : MInv kp s0)
    (hreach : Relation.ReflTransGen (IngStep kp sn f) s0 s) :
    MInv kp s := by
  induction hreach with
  | refl => exact hinv
  | tail hsteps hstep ih => exact c6_inv_step ih hstep

/-- The company of the crash-safety witness. -/
def c6WitCompany : Company := { cik_str := "320193", ticker := "AAPL" }

/-- Fetch oracle of the crash-safety witness: a successful fetch. -/
def c6WitFetch : Company → FetchOutcome Unit := fun _ => .success ()

/-- Initial machine state of the crash-safety witness. -/
def c6WitS0 : MState Unit :=
  { queue := [c6WitCompany], current := none, store := [], completed := [] }

/-- Machine state after the snapshot write of the crash-safety witness. -/
def c6WitS1 : MState Unit :=
  { queue := [], current := some c6WitCompany,
    store := ainsert ("submissions/" ++ zfill10 c6WitCompany.cik_str)
      (fetchedDoc submissionsFailureSentinel (zfill10 c6WitCompany.cik_str)
        (c6WitFetch c6WitCompany)) [],
    completed := [] }

/-- Machine state after the completion-set write of the crash-safety witness. -/
def c6WitS2 : MState Unit :=
  { queue := [], current := none,
    store := c6WitS1.store,
    completed := insertCompleted c6WitCompany.cik_str [] }

/-- C6 witness: running the two steps of one entity from the empty state keeps
the invariant — in particular the completed identifier has its snapshot. -/
theorem c6_data_before_state_witness : MInv "submissions/" c6WitS2 := by
  apply c6_data_before_state Unit "submissions/" submissionsFailureSentinel
    c6WitFetch c6WitS0 c6WitS2
  · refine ⟨?_, ?_⟩
    · intro id_ hid
      simp [c6WitS0] at hid
    · intro c hc
      simp [c6WitS0] at hc
  · exact Relation.ReflTransGen.tail
      (Relation.ReflTransGen.single
        (IngStep.persistData c6WitCompany [] c6WitS0 rfl rfl))
      (IngStep.persistState c6WitCompany c6WitS1 rfl)

/-! ## C10: one output row per distinct CIK in the companies transform -/

theorem alookup_isSome_iff {β : Type} (k : String) (m : List (String × β)) :
    (alookup k m).isSome ↔ k ∈ m.map Prod.fst := by
  induction m with
  | nil => simp [alookup]
  | cons p rest ih =>
    obtain ⟨a, b⟩ := p
    by_cases h : a = k
    · simp [alookup, h]
    · simp only [alookup, if_neg h, List.map_cons, List.mem_cons]
      rw [ih]
      constructor
      · exact Or.inr
      · rintro (he | hm)
        · exact absurd he.symm h
        · exact hm

theorem buildTickerMapGo_alookup :
    ∀ (rows : List TickerRow) (acc : List (String × TickerRow)) (k : String),
      alookup k (buildTickerMapGo acc rows) =
        match alookup k acc with
        | some v => some v
        | none => rows.find? (fun t => decide (zfill10 t.cik_str = k)) := by
  intro rows
  induction rows with
  | nil =>
    intro acc k
    simp only [buildTickerMapGo, List.find?_nil]
    rcases alookup k acc with _ | v <;> rfl
  | cons t rest ih =>
    intro acc k
    simp only [buildTickerMapGo]
    by_cases hs : (alookup (zfill10 t.cik_str) acc).isSome
    · rw [if_pos hs, ih]
      rcases hacc : alookup k acc with _ | v
      · have hpt : (decide (zfill10 t.cik_str = k)) = false := by
          rw [decide_eq_false_iff_not]
          intro hne
          rw [hne, hacc] at hs
          simp at hs
        simp only [List.find?_cons, hpt]
      · rfl
    · rw [if_neg hs, ih]
      rcases hacc : alookup k acc with _ | v <;>
        rw [alookup_append, hacc]
      · by_cases hk : zfill10 t.cik_str = k
        · have hone : alookup k [(zfill10 t.cik_str, t)] = some t := by
            simp [alookup, hk]
          rw [hone]
          have hpt : (decide (zfill10 t.cik_str = k)) = true := by
            rwa [decide_eq_true_iff]
          simp only [List.find?_cons, hpt]
        · have hone : alookup k [(zfill10 t.cik_str, t)] = none := by
            simp [alookup, hk]
          rw [hone]
          have hpt : (decide (zfill10 t.cik_str = k)) = false := by
            rwa [decide_eq_false_iff_not]
          simp only [List.find?_cons, hpt]

theorem buildTickerMapGo_keys_nodup :
    ∀ (rows : List TickerRow) (acc : List (String × TickerRow)),
      (acc.map Prod.fst).Nodup →
      ((buildTickerMapGo acc rows).map Prod.fst).Nodup := by
  intro rows
  induction rows with
  | nil => intro acc h; exact h
  | cons t rest ih =>
    intro acc h
    simp only [buildTickerMapGo]
    by_cases hs : (alookup (zfill10 t.cik_str) acc).isSome
    · rw [if_pos hs]
      exact ih acc h
    · rw [if_neg hs]
      apply ih
      have hnm : zfill10 t.cik_str ∉ acc.map Prod.fst := by
        rw [← alookup_isSome_iff]
        simpa using hs
      simp [List.nodup_append, h, hnm]

theorem companiesLoop_map_cik_sublist (store : String → Option CompanySub)
    (tm : List (String × TickerRow)) :
    ∀ ciks : List String,
      List.Sublist ((companiesLoop store tm ciks).map CompanyRecord.cik) ciks := by
  intro ciks
  induction ciks with
  | nil => simp [companiesLoop]
  | cons cik rest ih =>
    rcases hs : store cik with _ | data <;> simp only [companiesLoop, hs]
    · exact ih.cons cik
    · by_cases he : data.error = true
      · rw [if_pos he]
        exact ih.cons cik
      · rw [if_neg he]
        simp only [List.map_cons]
        exact ih.cons₂ _

theorem companiesLoop_mem (store : String → Option CompanySub)
    (tm : List (String × TickerRow)) :
    ∀ (ciks : List String) (rec : CompanyRecord),
      rec ∈ companiesLoop store tm ciks →
      ∃ cik, cik ∈ ciks ∧ ∃ data, store cik = some data ∧ data.error = false ∧
        rec = companyRecordOf cik tm data := by
  intro ciks
  induction ciks with
  | nil => intro rec h; simp [companiesLoop] at h
  | cons cik rest ih =>
    intro rec h
    rcases hs : store cik with _ | data <;> simp only [companiesLoop, hs] at h
    · obtain ⟨c, hc, hrest⟩ := ih rec h
      exact ⟨c, List.mem_cons_of_mem _ hc, hrest⟩
    · by_cases he : data.error = true
      · rw [if_pos he] at h
        obtain ⟨c, hc, hrest⟩ := ih rec h
        exact ⟨c, List.mem_cons_of_mem _ hc, hrest⟩
      · rw [if_neg he] at h
        rcases List.mem_cons.mp h with rfl | h
        · exact ⟨cik, List.mem_cons_self _ _, data, hs, by simpa using he, rfl⟩
        · obtain ⟨c, hc, hrest⟩ := ih rec h
          exact ⟨c, List.mem_cons_of_mem _ hc, hrest⟩

/-- The submissions snapshot of the C10 counterexample: a valid payload (no
error sentinel) that has no `tickers` list. -/
def c10Sub : CompanySub :=
  { error := false, name := some "ACME Corp", tickers := [], exchanges := [],
    sic := none, sicDescription := none, stateOfIncorporation := none,
    fiscalYearEnd := none, entityType := none, ein := none }

/-- Raw-store oracle of the C10 counterexample. -/
def c10Store : String → Option CompanySub :=
  fun c => if c = "0000000001" then some c10Sub else none

/-- Two ticker entries sharing one CIK; the first carries ticker `"AAA"`. -/
def c10Tickers : List TickerRow :=
  [{ cik_str := "1", ticker := "AAA", title := "A Corp" },
   { cik_str := "1", ticker := "BBB", title := "B Corp" }]

/-- C10 (claim as stated is falsified): with two entries sharing CIK 1 and a
cached snapshot lacking a `tickers` list, the transform emits one row — but its
ticker field is `None`, not the first entry's `"AAA"`: the first entry does not
unconditionally supply the output ticker. -/
theorem c10_counterexample :
    ((companiesTransform c10Store c10Tickers).map (fun r => (r.cik, r.ticker)))
      = [("0000000001", none)] ∧
    (c10Tickers.headD { cik_str := "", ticker := "", title := "" }).ticker
      = "AAA" ∧
    (none : Option String) ≠ some "AAA" := by
  refine ⟨rfl, rfl, by simp⟩

/-- C10 (amended): the companies transform emits at most one output row per
distinct CIK — output CIKs are pairwise distinct — and the kept ticker-map
entry for a CIK is the first input entry with that CIK; that entry's ticker
supplies the output row's ticker field when the cached snapshot has a
non-empty `tickers` list and the entry's ticker is non-empty; otherwise the
snapshot's own first ticker or null is used. -/
theorem c10_dedup_amended :
    (∀ (store : String → Option CompanySub) (tickers : List TickerRow),
      ((companiesTransform store tickers).map CompanyRecord.cik).Nodup) ∧
    (∀ (tickers : List TickerRow) (k : String) (t : TickerRow),
      alookup k (buildTickerMap tickers) = some t →
      tickers.find? (fun row => decide (zfill10 row.cik_str = k)) = some t) ∧
    (∀ (store : String → Option CompanySub) (tickers : List TickerRow)
        (rec : CompanyRecord),
      rec ∈ companiesTransform store tickers →
      ∀ t : TickerRow, alookup rec.cik (buildTickerMap tickers) = some t →
      ∀ data : CompanySub, store rec.cik = some data →
        data.tickers.isEmpty = false → t.ticker ≠ "" →
        rec.ticker = some t.ticker) := by
  refine ⟨?_, ?_, ?_⟩
  · intro store tickers
    exact ((companiesLoop_map_cik_sublist store (buildTickerMap tickers)
        ((buildTickerMap tickers).map (fun p => p.1))).nodup
      (buildTickerMapGo_keys_nodup tickers [] (by simp)))
  · intro tickers k t h
    rw [buildTickerMap, buildTickerMapGo_alookup] at h
    simpa [alookup] using h
  · intro store tickers rec hrec t ht data hdata hne htne
    have hrec2 : rec ∈ companiesLoop store (buildTickerMap tickers)
        ((buildTickerMap tickers).map (fun p => p.1)) := hrec
    obtain ⟨cik, hcik, data', hdata', herr, hrec'⟩ :=
      companiesLoop_mem store (buildTickerMap tickers)
        ((buildTickerMap tickers).map (fun p => p.1)) rec hrec2
    have hcikeq : rec.cik = cik := by rw [hrec']; rfl
    rw [hcikeq] at hdata ht
    rw [hdata'] at hdata
    injection hdata with hdata
    subst hdata
    have htd : alookupD (buildTickerMap tickers) cik emptyTickerRow = t := by
      simp [alookupD, ht]
    rw [hrec']
    simp only [companyRecordOf]
    rw [htd, hne]
    simp [htne]

/-- Snapshot of the C10 witness: has a non-empty `tickers` list. -/
def c10WitSub : CompanySub :=
  { error := false, name := some "ACME Corp", tickers := ["AAA"], exchanges := [],
    sic := none, sicDescription := none, stateOfIncorporation := none,
    fiscalYearEnd := none, entityType := none, ein := none }

/-- Raw-store oracle of the C10 witness. -/
def c10WitStore : String → Option CompanySub :=
  fun c => if c = "0000000001" then some c10WitSub else none

/-- Ticker index of the C10 witness: two entries sharing one CIK. -/
def c10WitTickers : List TickerRow :=
  [{ cik_str := "1", ticker := "AAA", title := "A Corp" },
   { cik_str := "1", ticker := "BBB", title := "B Corp" }]

/-- The single output row of the C10 witness run. -/
def c10WitRecord : CompanyRecord :=
  companyRecordOf "0000000001" (buildTickerMap c10WitTickers) c10WitSub

/-- C10 witness: the amended theorem instantiated at a concrete run — output
CIKs are distinct, the ticker-map entry for the CIK is the first input entry,
and since the snapshot has a non-empty tickers list that first entry's ticker
`"AAA"` supplies the output ticker. -/
theorem c10_dedup_amended_witness :
    ((companiesTransform c10WitStore c10WitTickers).map CompanyRecord.cik).Nodup ∧
    c10WitTickers.find? (fun row => decide (zfill10 row.cik_str = "0000000001"))
      = some { cik_str := "1", ticker := "AAA", title := "A Corp" } ∧
    c10WitRecord.ticker = some "AAA" := by
  refine ⟨c10_dedup_amended.1 c10WitStore c10WitTickers, ?_, ?_⟩
  · exact c10_dedup_amended.2.1 c10WitTickers "0000000001"
      { cik_str := "1", ticker := "AAA", title := "A Corp" } (by decide)
  · exact c10_dedup_amended.2.2 c10WitStore c10WitTickers c10WitRecord
      (by decide)
      { cik_str := "1", ticker := "AAA", title := "A Corp" } (by decide)
      c10WitSub (by decide) (by decide) (by decide)

end Edgar
